import Mathlib

/-!
Verification development for the simulation core of a tile-based,
turn-coordinated dungeon crawler (Rust sources: dungeon.rs, combat.rs,
ai.rs, game_state.rs and their data types).  The Rust code is shallowly
embedded: machine integers become Nat/Int, vectors become lists,
hash sets/maps become lists with first-match lookup, and every random
draw is taken from an explicit stream of naturals so that a universally
quantified stream covers every random outcome.  f32 arithmetic is
modelled exactly with (mantissa, exponent) pairs and round-to-nearest,
ties-to-even at 24 significant bits (the normal range of f32; the
sources never reach overflow or subnormal territory on the inputs the
theorems speak about).
-/

namespace DG

/-! ## Random source

The Rust code uses rand::thread_rng.  We model the generator as an
infinite stream of naturals together with a cursor; gen_range(lo..hi)
and gen_range(lo..=hi) map the next raw draw into the requested
interval, and gen_bool(0.3) tests the next draw against 3 of 10.  Any
value in the requested interval (and either boolean) is produced by
some stream, and every stream produces a value inside the interval, so
quantifying over streams captures "for every random outcome". -/

structure RngS where
  vals : Nat → Nat
  idx : Nat

def RngS.next (r : RngS) : Nat × RngS :=
  (r.vals r.idx, { r with idx := r.idx + 1 })

/-- Model of rng.gen_range(lo..hi) on usize-like values (half-open). -/
def genRangeN (lo hi : Nat) (r : RngS) : Nat × RngS :=
  let (v, r1) := r.next
  (lo + v % (hi - lo), r1)

/-- Model of rng.gen_range(lo..=hi) on usize-like values (inclusive). -/
def genRangeNI (lo hi : Nat) (r : RngS) : Nat × RngS :=
  let (v, r1) := r.next
  (lo + v % (hi - lo + 1), r1)

/-- Model of rng.gen_range(lo..=hi) on i32 values (inclusive). -/
def genRangeZI (lo hi : Int) (r : RngS) : Int × RngS :=
  let (v, r1) := r.next
  (lo + (v : Int) % (hi - lo + 1), r1)

/-- Model of rng.gen_bool(0.3). -/
def genBool30 (r : RngS) : Bool × RngS :=
  let (v, r1) := r.next
  (v % 10 < 3, r1)

/-! ## f32 model

A finite nonzero f32 is m * 2^e with 2^23 ≤ |m| < 2^24; zero is ⟨0, 0⟩.
roundF a b e rounds the exact rational a * 2^e / b to the nearest such
value, ties to even, which is the IEEE-754 result of any single
operation whose exact value that is. -/

structure F32 where
  m : Int
  e : Int
deriving DecidableEq, Repr

/-- Fuel-bounded floor of log2; fuel 128 covers every number below 2^128. -/
def lg2 : Nat → Nat → Nat
  | 0, _ => 0
  | fuel+1, n => if n ≤ 1 then 0 else lg2 fuel (n / 2) + 1

/-- Decide B * 2^E ≤ A * 2^e on naturals with integer exponents. -/
def le2 (B : Nat) (E : Int) (A : Nat) (e : Int) : Bool :=
  if E - e ≥ 0 then B * 2 ^ (E - e).toNat ≤ A else B ≤ A * 2 ^ (e - E).toNat

/-- Move a candidate exponent down until 2^E ≤ A*2^e/B. -/
def adjDown : Nat → Int → Nat → Nat → Int → Int
  | 0, E, _, _, _ => E
  | fuel+1, E, B, A, e => if le2 B E A e then E else adjDown fuel (E - 1) B A e

/-- Move a candidate exponent up while 2^(E+1) ≤ A*2^e/B. -/
def adjUp : Nat → Int → Nat → Nat → Int → Int
  | 0, E, _, _, _ => E
  | fuel+1, E, B, A, e => if le2 B (E + 1) A e then adjUp fuel (E + 1) B A e else E

/-- Round the exact value a * 2^e / b (b ≠ 0) to the nearest f32,
ties to even. -/
def roundF (a b : Int) (e : Int) : F32 :=
  if a = 0 ∨ b = 0 then ⟨0, 0⟩ else
  let sgn : Int := if (a < 0) = (b < 0) then 1 else -1
  let A := a.natAbs
  let B := b.natAbs
  let E0 : Int := (lg2 128 A : Int) - (lg2 128 B : Int) + e
  let E := adjUp 4 (adjDown 4 E0 B A e) B A e
  let d : Int := e + 23 - E
  let N := if d ≥ 0 then A * 2 ^ d.toNat else A
  let D := if d ≥ 0 then B else B * 2 ^ (-d).toNat
  let q := N / D
  let r := N % D
  let m := q + (if D < 2 * r then 1 else if 2 * r < D then 0
                else if q % 2 = 0 then 0 else 1)
  if m = 2 ^ 24 then ⟨sgn * 2 ^ 23, E - 22⟩ else ⟨sgn * m, E - 23⟩

def F32.ofInt (n : Int) : F32 := roundF n 1 0

def F32.mul (x y : F32) : F32 := roundF (x.m * y.m) 1 (x.e + y.e)

def F32.div (x y : F32) : F32 := roundF x.m y.m (x.e - y.e)

def F32.add (x y : F32) : F32 :=
  let e0 := min x.e y.e
  roundF (x.m * 2 ^ (x.e - e0).toNat + y.m * 2 ^ (y.e - e0).toNat) 1 e0

def F32.le (x y : F32) : Bool :=
  let e0 := min x.e y.e
  x.m * 2 ^ (x.e - e0).toNat ≤ y.m * 2 ^ (y.e - e0).toNat

def F32.neg (x : F32) : F32 := ⟨-x.m, x.e⟩

def F32.sub (x y : F32) : F32 := F32.add x (F32.neg y)

/-- The f32 literal 0.5. -/
def F32.half : F32 := ⟨2 ^ 23, -24⟩

/-- The f32 literal 1.0. -/
def F32.one : F32 := ⟨2 ^ 23, -23⟩

/-- Truncation toward zero with i32 saturation: the semantics of
`as i32` applied to a finite f32. -/
def F32.toI32 (x : F32) : Int :=
  let t : Int := if x.e ≥ 0 then x.m * 2 ^ x.e.toNat else x.m.tdiv (2 ^ (-x.e).toNat)
  max (-(2 ^ 31)) (min (2 ^ 31 - 1) t)

/-! ## Data model (game_object/object.rs, tile.rs, entity.rs, chest.rs,
consumable.rs, message.rs)

HashMap-backed registries become lists of objects with first-match
lookup by id; the iteration order of get_all_objects is the list
order (the Rust HashMap order is arbitrary, so theorems that depend on
it are stated for the fixed list order).  The interactable payload is
modelled by its presence bit, the only part the core reads. -/

structure SpriteCoord where
  x : Nat
  y : Nat
deriving DecidableEq, Repr

structure GameObject where
  id : String
  name : String
  object_type : String
  walkable : Bool
  health : Option Nat
  attack : Option Int
  defense : Option Int
  attack_spread_percent : Option Nat
  crit_chance_percent : Option Nat
  crit_damage_percent : Option Nat
  monster : Option Bool
  healing_power : Option Nat
  sprites : List SpriteCoord
  interactable : Bool
  sprite_x : Option Nat
  sprite_y : Option Nat
  properties : List (String × String)
deriving DecidableEq, Repr

def GameObject.get_sprites_vec (o : GameObject) : List SpriteCoord :=
  if o.sprites ≠ [] then o.sprites
  else match o.sprite_x, o.sprite_y with
    | some x, some y => [⟨x, y⟩]
    | _, _ => []

/-- GameObject::get_interactable_walkable. -/
def GameObject.get_interactable_walkable (o : GameObject) (is_after : Bool) : Bool :=
  if o.interactable || o.object_type == "chest" then is_after else o.walkable

/-- Lookup in a properties map, modelling HashMap::get. -/
def propGet (ps : List (String × String)) (k : String) : Option String :=
  (ps.find? (fun p => p.1 == k)).map (·.2)

structure Tile where
  walkable : Bool
  sprite_x : Nat
  sprite_y : Nat
  sprites : List SpriteCoord
deriving DecidableEq, Repr

/-- Tile::new. -/
def Tile.mk_ (walkable : Bool) (sx sy : Nat) : Tile :=
  ⟨walkable, sx, sy, [⟨sx, sy⟩]⟩

/-- Tile::from(&GameObject); draws a sprite when the object has any. -/
def tileFrom (o : GameObject) (r : RngS) : Tile × RngS :=
  let sprites := o.get_sprites_vec
  if sprites ≠ [] then
    let (i, r1) := genRangeN 0 sprites.length r
    let s := sprites.getD i ⟨0, 0⟩
    (⟨o.walkable, s.x, s.y, sprites⟩, r1)
  else
    (⟨o.walkable, (o.sprite_x.getD 0), (o.sprite_y.getD 0), sprites⟩, r)

/-- Tile::randomize_sprite. -/
def Tile.randomize_sprite (t : Tile) (r : RngS) : Tile × RngS :=
  if t.sprites ≠ [] then
    let (i, r1) := genRangeN 0 t.sprites.length r
    let s := t.sprites.getD i ⟨0, 0⟩
    ({ t with sprite_x := s.x, sprite_y := s.y }, r1)
  else (t, r)

inductive EntityController where
  | Player
  | AI
deriving DecidableEq, Repr

structure Entity where
  id : String
  x : Nat
  y : Nat
  object_id : String
  attack : Int
  defense : Int
  attack_spread_percent : Nat
  crit_chance_percent : Nat
  crit_damage_percent : Nat
  max_health : Nat
  current_health : Nat
  controller : EntityController
  facing_right : Bool
deriving DecidableEq, Repr

/-- Entity::new: spawns at full health, facing right. -/
def Entity.new (id : String) (x y : Nat) (object_id : String)
    (attack defense : Int) (spread crit_chance crit_damage : Nat)
    (max_health : Nat) (controller : EntityController) : Entity :=
  ⟨id, x, y, object_id, attack, defense, spread, crit_chance, crit_damage,
    max_health, max_health, controller, true⟩

def Entity.is_alive (e : Entity) : Bool :=
  e.current_health > 0

def Entity.heal (e : Entity) (amount : Nat) : Entity :=
  { e with current_health := min (e.current_health + amount) e.max_health }

/-- The default entity used for out-of-range list reads (never observed on
in-range indices). -/
def dfltEntity : Entity := Entity.new "" 0 0 "" 0 0 0 0 0 0 .AI

structure Chest where
  id : String
  x : Nat
  y : Nat
  object_id : String
  open_object_id : Option String
  is_open : Bool
deriving DecidableEq, Repr

structure Consumable where
  id : String
  x : Nat
  y : Nat
  object_id : String
deriving DecidableEq, Repr

inductive MessageType where
  | Combat
  | LevelEvent
  | System
deriving DecidableEq, Repr

structure GameMessage where
  message_type : MessageType
  text : String
  attacker : Option String
  target : Option String
  damage : Option Nat
  target_health_after : Option Nat
  target_died : Option Bool
  is_crit : Option Bool
deriving DecidableEq, Repr

def GameMessage.combat (attacker target : String) (damage health_after : Nat)
    (died : Bool) : GameMessage :=
  let text := if died then attacker ++ " killed " ++ target ++ "!"
    else attacker ++ " dealt " ++ toString damage ++ " damage to " ++ target
  ⟨.Combat, text, some attacker, some target, some damage, some health_after,
    some died, some false⟩

def GameMessage.combat_crit (attacker target : String) (damage health_after : Nat)
    (died : Bool) : GameMessage :=
  let text := if died then attacker ++ " CRITICALLY killed " ++ target ++ "!"
    else attacker ++ " CRITICALLY dealt " ++ toString damage ++ " damage to " ++ target
  ⟨.Combat, text, some attacker, some target, some damage, some health_after,
    some died, some true⟩

def GameMessage.healing (item target : String) (amount health_after : Nat) : GameMessage :=
  ⟨.Combat, item ++ " healed " ++ target ++ " for " ++ toString amount ++ " HP",
    some item, some target, some amount, some health_after, some false, none⟩

def GameMessage.level_event (text : String) : GameMessage :=
  ⟨.LevelEvent, text, none, none, none, none, none, none⟩

structure PlayerCommand where
  action : String
  confirm_stairs : Option Bool
  confirm_restart : Option Bool
deriving DecidableEq, Repr

structure GameObjectRegistry where
  objects : List GameObject
deriving DecidableEq, Repr

def GameObjectRegistry.get_object (reg : GameObjectRegistry) (id : String) :
    Option GameObject :=
  reg.objects.find? (fun o => o.id == id)

def GameObjectRegistry.get_all_objects (reg : GameObjectRegistry) : List GameObject :=
  reg.objects

/-! ## Combat (combat.rs, attack_entity)

The global atomic consumable-id counter is threaded as an explicit
natural number.  The spread draw happens only when the spread percent
is positive and the crit draw only when the crit chance is positive,
matching the Rust shortcut evaluation. -/

/-- The spread range (attacker_attack as f32 * attacker_spread as f32 / 100.0)
as i32, from combat.rs line 34. -/
def spreadRangeF (attack : Int) (spread : Nat) : Int :=
  (F32.div (F32.mul (F32.ofInt attack) (F32.ofInt spread)) (F32.ofInt 100)).toI32

/-- The crit-amplified base damage (base_damage as f32 *
attacker_crit_damage as f32 / 100.0) as i32, from combat.rs line 47. -/
def critBaseF (base : Int) (crit_damage : Nat) : Int :=
  (F32.div (F32.mul (F32.ofInt base) (F32.ofInt crit_damage)) (F32.ofInt 100)).toI32

structure AttackOut where
  message : Option GameMessage
  entities : List Entity
  consumables : List Consumable
  cid : Nat
  rng : RngS

/-- The spread block of attack_entity (combat.rs lines 32-39): one draw in
[-spread_range, spread_range] when the spread percent is positive, else 0
with no draw. -/
def drawSpread (attack : Int) (spread : Nat) (rng : RngS) : Int × RngS :=
  if spread > 0 then
    let spread_range := spreadRangeF attack spread
    genRangeZI (-spread_range) spread_range rng
  else ((0 : Int), rng)

/-- The crit roll of attack_entity (combat.rs line 44); the draw happens
only when the crit chance is positive (Rust shortcut evaluation). -/
def drawCrit (crit_chance : Nat) (rng : RngS) : Bool × RngS :=
  if crit_chance > 0 then
    let (roll, r2) := genRangeN 0 100 rng
    (roll < crit_chance, r2)
  else (false, rng)

/-- The potion-drop block of attack_entity (combat.rs lines 75-105),
entered when an AI-controlled target died: a 25% roll, then one
consumable of a drawn consumable-typed template at the death position. -/
def monsterDrop (reg : GameObjectRegistry) (consumables : List Consumable)
    (target_x target_y : Nat) (cid : Nat) (rng : RngS) :
    List Consumable × Nat × RngS :=
  let (roll, r3) := genRangeN 0 100 rng
  if roll < 25 then
    let potion_templates := reg.get_all_objects.filter
      (fun o => o.object_type == "consumable")
    if potion_templates ≠ [] then
      let (i, r4) := genRangeN 0 potion_templates.length r3
      let tpl := potion_templates.getD i
        (GameObject.mk "" "" "" false none none none none none none none
          none [] false none none [])
      (consumables ++ [⟨"consumable_" ++ toString cid, target_x, target_y,
        tpl.id⟩], cid + 1, r4)
    else (consumables, cid, r3)
  else (consumables, cid, r3)

/-- attack_entity from combat.rs, with the random generator and the
global consumable-id counter threaded explicitly. -/
def attack_entity (entities : List Entity) (attacker_idx target_idx : Nat)
    (reg : GameObjectRegistry) (consumables : List Consumable)
    (cid : Nat) (rng : RngS) : AttackOut :=
  if attacker_idx ≥ entities.length ∨ target_idx ≥ entities.length then
    ⟨none, entities, consumables, cid, rng⟩
  else
    let atk := entities.getD attacker_idx dfltEntity
    let attacker_attack := atk.attack
    let attacker_spread := atk.attack_spread_percent
    let attacker_crit_chance := atk.crit_chance_percent
    let attacker_crit_damage := atk.crit_damage_percent
    let attacker_id := atk.id
    let attacker_x := atk.x
    let tgt0 := entities.getD target_idx dfltEntity
    let target_defense := tgt0.defense
    let (spread_amount, rng1) := drawSpread attacker_attack attacker_spread rng
    let base_damage := attacker_attack + spread_amount
    let (is_crit, rng2) := drawCrit attacker_crit_chance rng1
    let final_base_damage :=
      if is_crit then critBaseF base_damage attacker_crit_damage else base_damage
    let raw_damage := final_base_damage - target_defense
    let damage : Nat := (max raw_damage 1).toNat
    let target_y := tgt0.y
    let target_id := tgt0.id
    let target_x := tgt0.x
    let new_health := if damage ≥ tgt0.current_health then 0
      else tgt0.current_health - damage
    let entities1 := entities.set target_idx { tgt0 with current_health := new_health }
    let health_after := new_health
    let target_died := health_after == 0
    let was_monster := tgt0.controller == EntityController.AI
    let (consumables1, cid1, rng3) :=
      if target_died && was_monster then
        monsterDrop reg consumables target_x target_y cid rng2
      else (consumables, cid, rng2)
    let entities2 :=
      if attacker_x < target_x then
        entities1.set attacker_idx
          { entities1.getD attacker_idx dfltEntity with facing_right := true }
      else if attacker_x > target_x then
        entities1.set attacker_idx
          { entities1.getD attacker_idx dfltEntity with facing_right := false }
      else entities1
    let attacker_name := ((reg.get_object
      ((entities2.getD attacker_idx dfltEntity).object_id)).map (·.name)).getD attacker_id
    let target_name := ((reg.get_object
      ((entities2.getD target_idx dfltEntity).object_id)).map (·.name)).getD target_id
    let message := if is_crit then
        GameMessage.combat_crit attacker_name target_name damage health_after target_died
      else
        GameMessage.combat attacker_name target_name damage health_after target_died
    ⟨some message, entities2, consumables1, cid1, rng3⟩

/-! ## Dungeon grid (dungeon.rs data, tile access) -/

structure Room where
  x : Nat
  y : Nat
  width : Nat
  height : Nat
deriving DecidableEq, Repr

structure Dungeon where
  width : Nat
  height : Nat
  tiles : List (List Tile)
  rooms : List Room
deriving Repr

def defaultTile : Tile := Tile.mk_ false 0 0

def getTileAt (tiles : List (List Tile)) (x y : Nat) : Tile :=
  (tiles.getD y []).getD x defaultTile

/-- Dungeon::is_walkable. -/
def Dungeon.is_walkable (d : Dungeon) (x y : Nat) : Bool :=
  if y ≥ d.height ∨ x ≥ d.width then false
  else (getTileAt d.tiles x y).walkable

/-- usize::wrapping_sub(1): 0 wraps to usize::MAX, which every in-bounds
check then rejects. -/
def wsub1 (x : Nat) : Nat :=
  if x = 0 then 2 ^ 64 - 1 else x - 1

/-! ## AI controller (ai.rs) -/

/-- The facing update at the top of both move_entity functions: the
facing flag follows the sign of the horizontal step. -/
def faceUpdate (entities : List Entity) (entity_idx : Nat) (dx : Int) : List Entity :=
  let e0 := entities.getD entity_idx dfltEntity
  if dx > 0 then entities.set entity_idx { e0 with facing_right := true }
  else if dx < 0 then entities.set entity_idx { e0 with facing_right := false }
  else entities

/-- The movement core shared by ai.rs move_entity and
GameState::move_entity (the Rust helper was extracted from GameState for
reuse): move when the destination is nonnegative, inside the grid,
walkable in the tile grid, and not occupied by another living entity. -/
def tryMoveCore (entities1 : List Entity) (dungeon : Dungeon)
    (entity_idx : Nat) (dx dy : Int) : List Entity :=
  let e1 := entities1.getD entity_idx dfltEntity
  let nx : Int := (e1.x : Int) + dx
  let ny : Int := (e1.y : Int) + dy
  if nx ≥ 0 ∧ ny ≥ 0 then
    let new_x := nx.toNat
    let new_y := ny.toNat
    if new_x ≥ dungeon.width ∨ new_y ≥ dungeon.height then entities1
    else if ¬ (dungeon.is_walkable new_x new_y) then entities1
    else if entities1.any (fun e => e.id ≠ e1.id ∧ e.x = new_x ∧ e.y = new_y ∧
        e.is_alive) then entities1
    else entities1.set entity_idx { e1 with x := new_x, y := new_y }
  else entities1

/-- The helper move_entity of ai.rs. -/
def Ai.move_entity (entities : List Entity) (dungeon : Dungeon)
    (entity_idx : Nat) (dx dy : Int) : List Entity :=
  if entity_idx ≥ entities.length then entities
  else tryMoveCore (faceUpdate entities entity_idx dx) dungeon entity_idx dx dy

/-- Path reconstruction of find_path_step: walk the parent map from the
target back toward the start, collecting the chain in Vec push order. -/
def pathBack : Nat → (Nat × Nat) → (Nat × Nat) →
    List ((Nat × Nat) × (Nat × Nat)) → List (Nat × Nat) → List (Nat × Nat)
  | 0, _, _, _, path => path
  | fuel+1, current, start, parent, path =>
    if current = start then path
    else
      let path1 := path ++ [current]
      match parent.find? (fun p => p.1 == current) with
      | some pr => pathBack fuel pr.2 start parent path1
      | none => path1

/-- One neighbour admission of find_path_step: skip out-of-bounds,
visited, non-walkable, and cells occupied by another living entity that
is not on the target cell; otherwise enqueue, visit and record the
parent. -/
def bfsStep (entities : List Entity) (dungeon : Dungeon) (selfId : String)
    (target cell : Nat × Nat)
    (st : List (Nat × Nat) × List (Nat × Nat) × List ((Nat × Nat) × (Nat × Nat)))
    (n : Nat × Nat) :
    List (Nat × Nat) × List (Nat × Nat) × List ((Nat × Nat) × (Nat × Nat)) :=
  let (queue, visited, parent) := st
  if n.1 ≥ dungeon.width ∨ n.2 ≥ dungeon.height then st
  else if visited.contains n then st
  else if ¬ (dungeon.is_walkable n.1 n.2) then st
  else if entities.any (fun e => e.id ≠ selfId ∧ e.x = n.1 ∧ e.y = n.2 ∧
      e.is_alive ∧ ¬ (e.x = target.1 ∧ e.y = target.2)) then st
  else (queue ++ [n], n :: visited, (n, cell) :: parent)

/-- The BFS expansion over the 4-connected neighbours of a popped cell. -/
def bfsExpand (entities : List Entity) (dungeon : Dungeon) (selfId : String)
    (target : Nat × Nat) (cell : Nat × Nat)
    (st : List (Nat × Nat) × List (Nat × Nat) × List ((Nat × Nat) × (Nat × Nat))) :
    List (Nat × Nat) × List (Nat × Nat) × List ((Nat × Nat) × (Nat × Nat)) :=
  let neighbors := [(wsub1 cell.1, cell.2), (cell.1 + 1, cell.2),
    (cell.1, wsub1 cell.2), (cell.1, cell.2 + 1)]
  neighbors.foldl (bfsStep entities dungeon selfId target cell) st

/-- The BFS loop of find_path_step.  Returns some step when the loop hits
its in-loop return; none stands both for an exhausted queue and for the
in-loop break, which fall through to the signum fallback. -/
def bfsLoop (entities : List Entity) (dungeon : Dungeon) (selfId : String)
    (start target : Nat × Nat) :
    Nat → List (Nat × Nat) → List (Nat × Nat) →
    List ((Nat × Nat) × (Nat × Nat)) → Option (Int × Int)
  | 0, _, _, _ => none
  | fuel+1, queue, visited, parent =>
    match queue with
    | [] => none
    | cell :: rest =>
      if cell = target then
        let path := pathBack (parent.length + 1) target start parent []
        match path.getLast? with
        | some first =>
          some (((first.1 : Int) - (start.1 : Int)).sign,
            ((first.2 : Int) - (start.2 : Int)).sign)
        | none => none
      else
        let (queue1, visited1, parent1) :=
          bfsExpand entities dungeon selfId target cell (rest, visited, parent)
        bfsLoop entities dungeon selfId start target fuel queue1 visited1 parent1

/-- find_path_step from ai.rs: direct signum step when the target is within
the 3x3 box, else a BFS first step, else the raw signum fallback. -/
def find_path_step (entities : List Entity) (dungeon : Dungeon)
    (start_x start_y target_x target_y : Nat) (entity_idx : Nat) :
    Option (Int × Int) :=
  let dx : Int := (target_x : Int) - (start_x : Int)
  let dy : Int := (target_y : Int) - (start_y : Int)
  if dx.natAbs ≤ 1 ∧ dy.natAbs ≤ 1 then some (dx.sign, dy.sign)
  else
    let selfId := (entities.getD entity_idx dfltEntity).id
    match bfsLoop entities dungeon selfId (start_x, start_y) (target_x, target_y)
      (dungeon.width * dungeon.height + 2) [(start_x, start_y)]
      [(start_x, start_y)] [] with
    | some step => some step
    | none => if dx ≠ 0 ∨ dy ≠ 0 then some (dx.sign, dy.sign) else none

structure AiOut where
  entities : List Entity
  consumables : List Consumable
  cid : Nat
  rng : RngS
  messages : List GameMessage

/-- Nearest-player scan of process_ai_turns: minimum Chebyshev distance at
most 5, first encountered wins strict ties. -/
def nearestPlayer (player_positions : List (Nat × Nat)) (ai_x ai_y : Nat) :
    Option (Nat × Nat) :=
  (player_positions.foldl (fun (st : Option (Nat × Nat) × Nat) p =>
    let dx := if ai_x > p.1 then ai_x - p.1 else p.1 - ai_x
    let dy := if ai_y > p.2 then ai_y - p.2 else p.2 - ai_y
    let distance := max dx dy
    if distance ≤ 5 ∧ distance < st.2 then (some p, distance) else st)
    (none, 6)).1

/-- The per-monster body of the process_ai_turns loop. -/
def processOneAi (dungeon : Dungeon) (reg : GameObjectRegistry)
    (player_positions : List (Nat × Nat)) (st : AiOut) (ai_idx : Nat) : AiOut :=
  let dflt : Entity := Entity.new "" 0 0 "" 0 0 0 0 0 0 .AI
  let ai_entity := st.entities.getD ai_idx dfltEntity
  let ai_x := ai_entity.x
  let ai_y := ai_entity.y
  match nearestPlayer player_positions ai_x ai_y with
  | some (target_x, target_y) =>
    let dx : Int := (target_x : Int) - (ai_x : Int)
    let dy : Int := (target_y : Int) - (ai_y : Int)
    let is_adjacent_orthogonal := (dx.natAbs = 1 ∧ dy = 0) ∨ (dx = 0 ∧ dy.natAbs = 1)
    if is_adjacent_orthogonal then
      match st.entities.findIdx? (fun e => e.x = target_x ∧ e.y = target_y ∧
          e.is_alive ∧ e.controller = EntityController.Player) with
      | some target_idx =>
        let out := attack_entity st.entities ai_idx target_idx reg st.consumables
          st.cid st.rng
        { st with
          entities := out.entities
          consumables := out.consumables
          cid := out.cid
          rng := out.rng
          messages := st.messages ++ out.message.toList }
      | none => st
    else
      match find_path_step st.entities dungeon ai_x ai_y target_x target_y ai_idx with
      | some (sdx, sdy) =>
        { st with entities := Ai.move_entity st.entities dungeon ai_idx sdx sdy }
      | none => st
  | none =>
    let directions : List (Int × Int) := [(0, -1), (0, 1), (-1, 0), (1, 0)]
    let (i, rng1) := genRangeN 0 directions.length st.rng
    let d := directions.getD i (0, 0)
    { st with
      entities := Ai.move_entity st.entities dungeon ai_idx d.1 d.2
      rng := rng1 }

/-- process_ai_turns from ai.rs: snapshot the living player positions and
the indices of living monsters, then run each monster body in storage
order. -/
def process_ai_turns (entities : List Entity) (dungeon : Dungeon)
    (reg : GameObjectRegistry) (consumables : List Consumable)
    (cid : Nat) (rng : RngS) : AiOut :=
  let player_positions := (entities.filter (fun e =>
    e.controller = EntityController.Player ∧ e.is_alive)).map (fun e => (e.x, e.y))
  let ai_indices := ((List.range entities.length).filter (fun i =>
    let e := entities.getD i dfltEntity
    e.controller = EntityController.AI ∧ e.is_alive))
  ai_indices.foldl (processOneAi dungeon reg player_positions)
    ⟨entities, consumables, cid, rng, []⟩

/-! ## Turn coordinator (game_state.rs)

HashSet<String> becomes a list with membership-checked insertion.  The
call to MapGenerator::generate_map inside restart_level is random and
lives outside src-scope claims, so its output is an oracle parameter
quantified in every theorem; the global consumable-id counter is an
explicit parameter as in the combat module.  handle_command carries a
ghost trace recording, for every invocation of process_ai_turns, the
living player ids and the acted-set at the moment of the call. -/

inductive TurnPhase where
  | PlayerPhase
  | AIPhase
deriving DecidableEq, Repr

def hsInsert (s : List String) (x : String) : List String :=
  if s.contains x then s else x :: s

structure TileRegistry where
  objects : List GameObject
deriving Repr

structure GameState where
  dungeon : Dungeon
  entities : List Entity
  consumables : List Consumable
  chests : List Chest
  tile_registry : TileRegistry
  object_registry : GameObjectRegistry
  stairs_position : Option (Nat × Nat)
  player_confirmations : List String
  restart_confirmations : List String
  turn_phase : TurnPhase
  players_acted_this_turn : List String
  current_turn : Nat
deriving Repr

/-- Output of the modelled MapGenerator::generate_map call (the generator
itself is random, so every theorem quantifies over this oracle). -/
structure GenOut where
  dungeon : Dungeon
  entities : List Entity
  consumables : List Consumable
  chests : List Chest
  stairs : Option (Nat × Nat)

/-- The i32 → usize as-cast: two's-complement wraparound at 2^64. -/
def castUsize (i : Int) : Nat :=
  (i % (2 ^ 64 : Int)).toNat

def GameState.are_all_players_dead (s : GameState) : Bool :=
  ((s.entities.filter (fun e => e.controller = EntityController.Player ∧
    e.is_alive)).length = 0) ∧
  s.entities.any (fun e => e.controller = EntityController.Player)

def GameState.alive_player_ids (s : GameState) : List String :=
  (s.entities.filter (fun e => e.controller = EntityController.Player ∧
    e.is_alive)).map (·.id)

/-- GameState::move_entity. -/
def GameState.move_entity (s : GameState) (entity_idx : Nat) (dx dy : Int) :
    GameState :=
  if entity_idx ≥ s.entities.length then s
  else
    { s with
      entities := tryMoveCore (faceUpdate s.entities entity_idx dx) s.dungeon
        entity_idx dx dy }

/-- The quirky first-walkable-tile scan at the top of restart_level:
the inner loop records the first walkable cell of the row, and the
outer loop stops once the recorded cell is walkable. -/
def spawnScanGo (d : Dungeon) : List Nat → (Nat × Nat) → (Nat × Nat)
  | [], p => p
  | y :: ys, p =>
    let p1 := match (List.range d.width).find? (fun x =>
        (getTileAt d.tiles x y).walkable) with
      | some x => (x, y)
      | none => p
    if (getTileAt d.tiles p1.1 p1.2).walkable then p1 else spawnScanGo d ys p1

def spawnScan (d : Dungeon) : Nat × Nat :=
  spawnScanGo d (List.range d.height) (1, 1)

/-- The per-player respawn body of restart_level. -/
def restartAddPlayer (s : GameState) (player_xy : Nat × Nat) (pid : String) :
    GameState :=
  let spawn_pos :=
    match s.entities.find? (fun e => e.controller = EntityController.Player) with
    | some fp =>
      let adjacent_positions : List (Nat × Nat) := [(wsub1 fp.x, fp.y),
        (fp.x + 1, fp.y), (fp.x, wsub1 fp.y), (fp.x, fp.y + 1)]
      match adjacent_positions.find? (fun (p : Nat × Nat) =>
          p.1 < s.dungeon.width ∧ p.2 < s.dungeon.height ∧
          (getTileAt s.dungeon.tiles p.1 p.2).walkable ∧
          ¬ s.entities.any (fun e => e.x = p.1 ∧ e.y = p.2)) with
      | some p => p
      | none => player_xy
    | none => player_xy
  match s.object_registry.get_object "player" with
  | some tpl =>
    { s with entities := s.entities ++ [Entity.new pid spawn_pos.1 spawn_pos.2
        "player" (tpl.attack.getD 10) (tpl.defense.getD 0)
        (tpl.attack_spread_percent.getD 20) (tpl.crit_chance_percent.getD 0)
        (tpl.crit_damage_percent.getD 150) (tpl.health.getD 100)
        EntityController.Player] }
  | none => s

/-- GameState::restart_level with the generate_map output as an oracle. -/
def GameState.restart_level (s : GameState) (gen : GenOut) : GameState :=
  let player_ids := (s.entities.filter (fun e =>
    e.controller = EntityController.Player)).map (·.id)
  let s1 : GameState :=
    { s with
      player_confirmations := []
      restart_confirmations := []
      turn_phase := TurnPhase.PlayerPhase
      players_acted_this_turn := []
      current_turn := 1
      entities := []
      consumables := gen.consumables
      chests := gen.chests
      dungeon := gen.dungeon
      stairs_position := gen.stairs }
  let player_xy := spawnScan s1.dungeon
  let s2 := player_ids.foldl (fun st pid => restartAddPlayer st player_xy pid) s1
  { s2 with entities := s2.entities ++ gen.entities }

/-- GameState::confirm_restart; returns the updated state and the message. -/
def GameState.confirm_restart (s : GameState) (player_id : String) (gen : GenOut) :
    GameState × Option GameMessage :=
  let s1 :=
    { s with restart_confirmations := hsInsert s.restart_confirmations player_id }
  let all_players := (s1.entities.filter (fun e =>
    e.controller = EntityController.Player)).map (·.id)
  let all_confirmed := (!all_players.isEmpty) &&
    all_players.all (fun pid => s1.restart_confirmations.contains pid)
  if all_confirmed then
    (s1.restart_level gen, some (GameMessage.level_event "Level restarted!"))
  else (s1, none)

/-- GameState::confirm_stairs; returns the updated state and the message. -/
def GameState.confirm_stairs (s : GameState) (player_id : String) :
    GameState × Option GameMessage :=
  let s1 :=
    { s with player_confirmations := hsInsert s.player_confirmations player_id }
  let all_players := s1.alive_player_ids
  let all_confirmed := all_players.all (fun pid =>
    s1.player_confirmations.contains pid)
  if all_confirmed then
    (s1, some (GameMessage.level_event
      "Level complete! All players confirmed. Preparing next level..."))
  else (s1, none)

structure HCOut where
  state : GameState
  messages : List GameMessage
  level_complete : Bool
  restart_confirmed : Bool
  cid : Nat
  rng : RngS
  aiCalls : List (List String × List String)

/-- Destination resolution of the movement branch of handle_command:
closed chest first, then a living monster, then the move with the
incidental consumable pickup.  Returns the updated state, the emitted
messages, and the threaded counter and generator. -/
def GameState.resolveDestination (s : GameState) (idx : Nat) (entityId : String)
    (dx dy : Int) (new_x new_y : Nat) (cid : Nat) (rng : RngS) :
    GameState × List GameMessage × Nat × RngS :=
  match s.chests.findIdx? (fun c => c.x = new_x ∧ c.y = new_y ∧ ¬ c.is_open) with
  | some chest_idx =>
    let chest := s.chests.getD chest_idx ⟨"", 0, 0, "", none, false⟩
    let s1 := { s with chests := s.chests.set chest_idx { chest with is_open := true } }
    let potion_templates := s1.object_registry.get_all_objects.filter
      (fun o => o.object_type == "consumable")
    if potion_templates ≠ [] then
      let (i, rng1) := genRangeN 0 potion_templates.length rng
      let tpl := potion_templates.getD i
        (GameObject.mk "" "" "" false none none none none none none none
          none [] false none none [])
      ({ s1 with consumables := s1.consumables ++
          [⟨"consumable_" ++ toString cid, new_x, new_y, tpl.id⟩] },
        [GameMessage.level_event "Chest opened!"], cid + 1, rng1)
    else (s1, [], cid, rng)
  | none =>
    match s.entities.findIdx? (fun e => e.id ≠ entityId ∧ e.x = new_x ∧
        e.y = new_y ∧ e.is_alive ∧ e.controller = EntityController.AI) with
    | some target_idx =>
      let out := attack_entity s.entities idx target_idx s.object_registry
        s.consumables cid rng
      ({ s with entities := out.entities, consumables := out.consumables },
        out.message.toList, out.cid, out.rng)
    | none =>
      let can_move :=
        match s.chests.find? (fun c => c.x = new_x ∧ c.y = new_y) with
        | some chest =>
          match s.object_registry.get_object chest.object_id with
          | some chest_obj => chest_obj.get_interactable_walkable chest.is_open
          | none => chest.is_open
        | none => true
      let s1 := if can_move then s.move_entity idx dx dy else s
        let px := (s1.entities.getD idx dfltEntity).x
      let py := (s1.entities.getD idx dfltEntity).y
      match s1.consumables.findIdx? (fun c => c.x = px ∧ c.y = py) with
      | some consumable_idx =>
        let c := s1.consumables.getD consumable_idx ⟨"", 0, 0, ""⟩
        match s1.object_registry.get_object c.object_id with
        | some consumable_obj =>
          match consumable_obj.healing_power with
          | some healing_power =>
            let old_health := (s1.entities.getD idx dfltEntity).current_health
            let e := s1.entities.getD idx dfltEntity
            let s2 := { s1 with entities := s1.entities.set idx (e.heal healing_power) }
            let new_health := (s2.entities.getD idx dfltEntity).current_health
            let healed_amount := new_health - old_health
            ({ s2 with consumables := s2.consumables.eraseIdx consumable_idx },
              [GameMessage.healing consumable_obj.name (s2.entities.getD idx dfltEntity).id
                healed_amount new_health], cid, rng)
          | none => (s1, [], cid, rng)
        | none => (s1, [], cid, rng)
      | none => (s1, [], cid, rng)

/-- GameState::handle_command.  The result carries the per-call ghost trace
aiCalls: one entry per process_ai_turns invocation, recording the living
player ids and the acted-set at the moment of the call. -/
def GameState.handle_command (s : GameState) (cmd : PlayerCommand)
    (player_id : String) (gen : GenOut) (cid : Nat) (rng : RngS) : HCOut :=
  if s.are_all_players_dead then
    ⟨s.restart_level gen,
      [GameMessage.level_event "All players died! Level restarted."],
      false, false, cid, rng, []⟩
  else if cmd.confirm_restart = some true then
    let (s1, m) := s.confirm_restart player_id gen
    ⟨s1, m.toList, false, m.isSome, cid, rng, []⟩
  else if cmd.confirm_stairs = some true then
    let (s1, m) := s.confirm_stairs player_id
    ⟨s1, m.toList, m.isSome, false, cid, rng, []⟩
  else if s.turn_phase ≠ TurnPhase.PlayerPhase then
    ⟨s, [], false, false, cid, rng, []⟩
  else if s.players_acted_this_turn.contains player_id then
    ⟨s, [], false, false, cid, rng, []⟩
  else
    match s.entities.findIdx? (fun e => e.id = player_id ∧
        e.controller = EntityController.Player) with
    | none => ⟨s, [], false, false, cid, rng, []⟩
    | some idx =>
      let step : Option (Int × Int) :=
        if cmd.action = "move_up" then some (0, -1)
        else if cmd.action = "move_down" then some (0, 1)
        else if cmd.action = "move_left" then some (-1, 0)
        else if cmd.action = "move_right" then some (1, 0)
        else none
      match step with
      | none =>
        let out := process_ai_turns s.entities s.dungeon s.object_registry
          s.consumables cid rng
        ⟨{ s with entities := out.entities, consumables := out.consumables },
          out.messages, false, false, out.cid, out.rng,
          [(s.alive_player_ids, s.players_acted_this_turn)]⟩
      | some (dx, dy) =>
        let entity := s.entities.getD idx dfltEntity
        let new_x := castUsize ((entity.x : Int) + dx)
        let new_y := castUsize ((entity.y : Int) + dy)
        let (s1, msgs1, cid1, rng1) :=
          if new_x < s.dungeon.width ∧ new_y < s.dungeon.height then
            s.resolveDestination idx entity.id dx dy new_x new_y cid rng
          else (s, [], cid, rng)
        let s2 :=
          { s1 with
            players_acted_this_turn := hsInsert s1.players_acted_this_turn player_id }
        let alive_players := s2.alive_player_ids
        let all_players_acted := alive_players ≠ [] ∧
          alive_players.all (fun pid => s2.players_acted_this_turn.contains pid)
        if all_players_acted then
          let s3 := { s2 with turn_phase := TurnPhase.AIPhase }
          let (s4, msgs2, cid2, rng2, calls) :=
            if ¬ s3.are_all_players_dead then
              let out := process_ai_turns s3.entities s3.dungeon s3.object_registry
                s3.consumables cid1 rng1
              ({ s3 with entities := out.entities, consumables := out.consumables },
                out.messages, out.cid, out.rng,
                [(s3.alive_player_ids, s3.players_acted_this_turn)])
            else (s3, [], cid1, rng1, [])
          ⟨{ s4 with
              turn_phase := TurnPhase.PlayerPhase
              players_acted_this_turn := []
              current_turn := s4.current_turn + 1 },
            msgs1 ++ msgs2, false, false, cid2, rng2, calls⟩
        else ⟨s2, msgs1, false, false, cid1, rng1, []⟩

/-- The adjacent-spawn search of add_player: the four neighbours (left,
right, up, down) of the first living player in storage order, the first
in-bounds, walkable one not occupied by a living entity. -/
def addPlayerAdjSpot (s : GameState) : Option (Nat × Nat) :=
  match s.entities.find? (fun e => e.controller = EntityController.Player ∧
      e.is_alive) with
  | some first_player =>
    let adjacent_positions : List (Nat × Nat) := [(wsub1 first_player.x, first_player.y),
      (first_player.x + 1, first_player.y),
      (first_player.x, wsub1 first_player.y),
      (first_player.x, first_player.y + 1)]
    adjacent_positions.find? (fun p =>
      p.1 < s.dungeon.width ∧ p.2 < s.dungeon.height ∧
      (getTileAt s.dungeon.tiles p.1 p.2).walkable ∧
      ¬ s.entities.any (fun e => e.x = p.1 ∧ e.y = p.2 ∧ e.is_alive))
  | none => none

/-- The row-major fallback scan of add_player: the first walkable tile not
occupied by a living entity. -/
def addPlayerScanSpot (s : GameState) : Option (Nat × Nat) :=
  ((List.range s.dungeon.height).flatMap (fun y =>
    (List.range s.dungeon.width).map (fun x => (x, y)))).find? (fun p =>
      (getTileAt s.dungeon.tiles p.1 p.2).walkable ∧
      ¬ s.entities.any (fun e => e.x = p.1 ∧ e.y = p.2 ∧ e.is_alive))

/-- GameState::add_player; returns the optional new index and the state. -/
def GameState.add_player (s : GameState) (player_id : String) :
    Option Nat × GameState :=
  match s.object_registry.get_object "player" with
  | none => (none, s)
  | some player_template =>
    let spawn : Nat × Nat :=
      ((addPlayerAdjSpot s).orElse (fun _ => addPlayerScanSpot s)).getD (1, 1)
    let max_health := player_template.health.getD 100
    let attack := (player_template.attack.orElse (fun _ =>
      (propGet player_template.properties "attack").bind String.toInt?)).getD 10
    let defense := (player_template.defense.orElse (fun _ =>
      (propGet player_template.properties "defense").bind String.toInt?)).getD 0
    let attack_spread := (player_template.attack_spread_percent.orElse (fun _ =>
      (propGet player_template.properties "attack_spread_percent").bind
        String.toNat?)).getD 20
    let crit_chance := (player_template.crit_chance_percent.orElse (fun _ =>
      (propGet player_template.properties "crit_chance_percent").bind
        String.toNat?)).getD 0
    let crit_damage := (player_template.crit_damage_percent.orElse (fun _ =>
      (propGet player_template.properties "crit_damage_percent").bind
        String.toNat?)).getD 150
    let player := Entity.new player_id spawn.1 spawn.2 player_template.id
      attack defense attack_spread crit_chance crit_damage max_health
      EntityController.Player
    (some s.entities.length, { s with entities := s.entities ++ [player] })

/-- GameState::remove_player: retain every entity that is not a
player-controlled entity with the given id. -/
def GameState.remove_player (s : GameState) (player_id : String) : GameState :=
  { s with entities := s.entities.filter (fun e =>
    ¬ (e.id = player_id ∧ e.controller = EntityController.Player)) }

/-! ## Dungeon generation (tile_registry.rs, dungeon.rs)

Tile::from draws a sprite, so every registry accessor that builds tiles
threads the random stream.  The HashMap value-iteration order is the
registry list order. -/

def TileRegistry.get_tile (reg : TileRegistry) (id : String) (r : RngS) :
    Option Tile × RngS :=
  match reg.objects.find? (fun o => o.id == id) with
  | some o =>
    let (t, r1) := tileFrom o r
    (some t, r1)
  | none => (none, r)

def TileRegistry.get_walkable_tiles (reg : TileRegistry) (r : RngS) :
    List Tile × RngS :=
  (reg.objects.filter (fun o => o.walkable ∧ o.object_type == "tile")).foldl
    (fun (st : List Tile × RngS) o =>
      let (t, r1) := tileFrom o st.2
      (st.1 ++ [t], r1)) ([], r)

def TileRegistry.get_wall_tiles (reg : TileRegistry) (r : RngS) :
    List Tile × RngS :=
  (reg.objects.filter (fun o => (¬ o.walkable) ∧ o.object_type == "tile")).foldl
    (fun (st : List Tile × RngS) o =>
      let (t, r1) := tileFrom o st.2
      (st.1 ++ [t], r1)) ([], r)

def TileRegistry.get_wall_dirt_top (reg : TileRegistry) (r : RngS) : Tile × RngS :=
  let (t, r1) := reg.get_tile "wall_dirt_top" r
  (t.getD (Tile.mk_ false 0 0), r1)

def TileRegistry.get_floor_dark (reg : TileRegistry) (r : RngS) : Tile × RngS :=
  let (t, r1) := reg.get_tile "floor_dark" r
  (t.getD (Tile.mk_ true 0 6), r1)

def setTileAt (tiles : List (List Tile)) (x y : Nat) (t : Tile) :
    List (List Tile) :=
  tiles.set y ((tiles.getD y []).set x t)

/-- The f32 inside-ellipse test of the room carver: a cell at offset
(dx, dy) is carved iff the normalized squared distance of its centre to
the box centre is at most 1. -/
def ellipseCond (x y w h dx dy : Nat) : Bool :=
  let center_x := F32.add (F32.ofInt x) (F32.div (F32.ofInt w) (F32.ofInt 2))
  let center_y := F32.add (F32.ofInt y) (F32.div (F32.ofInt h) (F32.ofInt 2))
  let radius_x := F32.div (F32.ofInt w) (F32.ofInt 2)
  let radius_y := F32.div (F32.ofInt h) (F32.ofInt 2)
  let px := F32.add (F32.add (F32.ofInt x) (F32.ofInt dx)) F32.half
  let py := F32.add (F32.add (F32.ofInt y) (F32.ofInt dy)) F32.half
  let dx_norm := F32.div (F32.sub px center_x) radius_x
  let dy_norm := F32.div (F32.sub py center_y) radius_y
  let dist_sq := F32.add (F32.mul dx_norm dx_norm) (F32.mul dy_norm dy_norm)
  F32.le dist_sq F32.one

/-- Row-major cell offsets of a room box (outer dy, inner dx). -/
def roomCells (w h : Nat) : List (Nat × Nat) :=
  (List.range h).flatMap (fun dy => (List.range w).map (fun dx => (dy, dx)))

/-- Room carving when the registry has walkable tiles: draw a floor tile
and a sprite for every carved cell. -/
def carveRoomFloors (floor_tiles : List Tile) (room : Room)
    (st : List (List Tile) × RngS) : List (List Tile) × RngS :=
  (roomCells room.width room.height).foldl
    (fun (st : List (List Tile) × RngS) c =>
      if ellipseCond room.x room.y room.width room.height c.2 c.1 then
        let (i, r1) := genRangeN 0 floor_tiles.length st.2
        let t := floor_tiles.getD i defaultTile
        let (t1, r2) := t.randomize_sprite r1
        (setTileAt st.1 (room.x + c.2) (room.y + c.1) t1, r2)
      else st) st

/-- Room carving fallback when the registry has no walkable tiles: write
the default floor and re-randomize the written cell. -/
def carveRoomFallback (df : Tile) (room : Room)
    (st : List (List Tile) × RngS) : List (List Tile) × RngS :=
  (roomCells room.width room.height).foldl
    (fun (st : List (List Tile) × RngS) c =>
      if ellipseCond room.x room.y room.width room.height c.2 c.1 then
        let tiles1 := setTileAt st.1 (room.x + c.2) (room.y + c.1) df
        let (t1, r1) := df.randomize_sprite st.2
        (setTileAt tiles1 (room.x + c.2) (room.y + c.1) t1, r1)
      else st) st

/-- The gap test of the placement loop: true when the candidate box and an
accepted box are within the 2-tile gap on the given axis values. -/
def gapAxis (a aw b bw : Nat) : Bool :=
  if a + aw + 2 < b then false
  else if b + bw + 2 < a then false
  else true

/-- overlaps check of the placement loop, done against one accepted room. -/
def roomsTooClose (x y rw rh : Nat) (er : Room) : Bool :=
  gapAxis x rw er.x er.width && gapAxis y rh er.y er.height

structure PlaceSt where
  rooms : List Room
  tiles : List (List Tile)
  rng : RngS

/-- The bounded placement loop of generate_rooms: up to 200 attempts, each
drawing a size class, dimensions and an origin, rejecting candidates too
close to an accepted room, carving accepted ones. -/
def placeLoop (reg : TileRegistry) (width height num_rooms : Nat) :
    Nat → PlaceSt → PlaceSt
  | 0, st => st
  | fuel+1, st =>
    if st.rooms.length ≥ num_rooms then st
    else
      let (isLarge, r1) := genBool30 st.rng
      let (rw, rh, r3) :=
        if isLarge then
          let (a, ra) := genRangeNI 10 15 r1
          let (b, rb) := genRangeNI 10 15 ra
          (a, b, rb)
        else
          let (a, ra) := genRangeNI 5 10 r1
          let (b, rb) := genRangeNI 5 10 ra
          (a, b, rb)
      let (x, r4) := genRangeN 1 (width - rw - 1) r3
      let (y, r5) := genRangeN 1 (height - rh - 1) r4
      let room : Room := ⟨x, y, rw, rh⟩
      let overlaps := st.rooms.any (roomsTooClose x y rw rh)
      if ¬ overlaps then
        let (floor_tiles, r6) := reg.get_walkable_tiles r5
        let (tiles1, r7) :=
          if floor_tiles ≠ [] then
            carveRoomFloors floor_tiles room (st.tiles, r6)
          else
            let (df0, ra) := reg.get_floor_dark r6
            let (df, rb) := df0.randomize_sprite ra
            carveRoomFallback df room (st.tiles, rb)
        placeLoop reg width height num_rooms fuel ⟨st.rooms ++ [room], tiles1, r7⟩
      else
        placeLoop reg width height num_rooms fuel { st with rng := r5 }

/-- The room centre used by corridor routing and distance ranking. -/
def roomCenter (r : Room) : Nat × Nat :=
  (r.x + r.width / 2, r.y + r.height / 2)

def natDist (a b : Nat) : Nat :=
  if a > b then a - b else b - a

/-- All room-pair Manhattan centre distances, in the double-loop order of
generate_rooms. -/
def roomDistances (rooms : List Room) : List (Nat × Nat × Nat) :=
  let n := rooms.length
  (List.range n).flatMap (fun i =>
    (List.range' (i + 1) (n - (i + 1))).map (fun j =>
      let c1 := roomCenter (rooms.getD i ⟨0, 0, 0, 0⟩)
      let c2 := roomCenter (rooms.getD j ⟨0, 0, 0, 0⟩)
      (i, j, natDist c1.1 c2.1 + natDist c1.2 c2.2)))

/-- Stable insertion for the distance sort (Rust sort_by_key is stable). -/
def insByKey (key : Nat × Nat × Nat → Nat) (x : Nat × Nat × Nat) :
    List (Nat × Nat × Nat) → List (Nat × Nat × Nat)
  | [] => [x]
  | y :: ys => if key x < key y then x :: y :: ys else y :: insByKey key x ys

def sortByKey (key : Nat × Nat × Nat → Nat) (l : List (Nat × Nat × Nat)) :
    List (Nat × Nat × Nat) :=
  l.foldl (fun acc x => insByKey key x acc) []

/-- Union-find find with path compression; the fuel (the number of rooms)
bounds every parent chain that the algorithm can build, and any
exhaustion still returns an ancestor. -/
def findC : Nat → List Nat → Nat → Nat × List Nat
  | 0, p, x => (p.getD x x, p)
  | fuel+1, p, x =>
    let px := p.getD x x
    if px = x then (x, p)
    else
      let (r, p1) := findC fuel p px
      (r, p1.set x r)

def unionC (fuel : Nat) (p : List Nat) (x y : Nat) : Bool × List Nat :=
  let (rx, p1) := findC fuel p x
  let (ry, p2) := findC fuel p1 y
  if rx ≠ ry then (true, p2.set ry rx) else (false, p2)

/-- One corridor tile: a drawn floor tile (or the default floor) with a
re-randomized sprite. -/
def corridorTile (floor_tiles : List Tile) (df : Tile) (r : RngS) : Tile × RngS :=
  let (t0, r1) :=
    if floor_tiles ≠ [] then
      let (i, ra) := genRangeN 0 floor_tiles.length r
      (floor_tiles.getD i defaultTile, ra)
    else (df, r)
  t0.randomize_sprite r1

/-- Horizontal corridor leg: row y over the given x values, each write
guarded exactly like the source bounds check. -/
def carveH (floor_tiles : List Tile) (df : Tile) (y : Nat) (xs : List Nat)
    (st : List (List Tile) × RngS) : List (List Tile) × RngS :=
  xs.foldl (fun (st : List (List Tile) × RngS) x =>
    if y < st.1.length ∧ x < (st.1.getD 0 []).length then
      let (t, r1) := corridorTile floor_tiles df st.2
      (setTileAt st.1 x y t, r1)
    else st) st

/-- Vertical corridor leg: column x over the given y values. -/
def carveV (floor_tiles : List Tile) (df : Tile) (x : Nat) (ys : List Nat)
    (st : List (List Tile) × RngS) : List (List Tile) × RngS :=
  ys.foldl (fun (st : List (List Tile) × RngS) y =>
    if y < st.1.length ∧ x < (st.1.getD 0 []).length then
      let (t, r1) := corridorTile floor_tiles df st.2
      (setTileAt st.1 x y t, r1)
    else st) st

def rangeIncl (a b : Nat) : List Nat :=
  List.range' (min a b) (max a b + 1 - min a b)

/-- The L-shaped corridor between two room centres, horizontal-first when
the x-leg is strictly shorter. -/
def carveCorridor (floor_tiles : List Tile) (df : Tile) (c1 c2 : Nat × Nat)
    (st : List (List Tile) × RngS) : List (List Tile) × RngS :=
  let dx := natDist c1.1 c2.1
  let dy := natDist c1.2 c2.2
  if dx < dy then
    let st1 := carveH floor_tiles df c1.2 (rangeIncl c1.1 c2.1) st
    carveV floor_tiles df c2.1 (rangeIncl c1.2 c2.2) st1
  else
    let st1 := carveV floor_tiles df c1.1 (rangeIncl c1.2 c2.2) st
    carveH floor_tiles df c2.2 (rangeIncl c1.1 c2.1) st1

/-- The Kruskal fold of generate_rooms: walk the distance-sorted edges,
carve a corridor for every edge that merges two components. -/
def mstFold (rooms : List Room) (floor_tiles : List Tile) (df : Tile)
    (edges : List (Nat × Nat × Nat)) (parent : List Nat)
    (st : List (List Tile) × RngS) :
    List Nat × List (List Tile) × RngS :=
  edges.foldl (fun (acc : List Nat × List (List Tile) × RngS) e =>
    let (parent, tiles, rng) := acc
    let (merged, parent1) := unionC parent.length parent e.1 e.2.1
    if merged then
      let c1 := roomCenter (rooms.getD e.1 ⟨0, 0, 0, 0⟩)
      let c2 := roomCenter (rooms.getD e.2.1 ⟨0, 0, 0, 0⟩)
      let (tiles1, rng1) := carveCorridor floor_tiles df c1 c2 (tiles, rng)
      (parent1, tiles1, rng1)
    else (parent1, tiles, rng)) (parent, st.1, st.2)

/-- Dungeon::generate_rooms: bounded random placement followed by the MST
corridor phase. -/
def generate_rooms (tiles0 : List (List Tile)) (width height : Nat)
    (reg : TileRegistry) (min_rooms max_rooms : Nat) (rng : RngS) :
    List (List Tile) × List Room × RngS :=
  let (num_rooms, r1) := genRangeNI min_rooms max_rooms rng
  let st := placeLoop reg width height num_rooms 200 ⟨[], tiles0, r1⟩
  if st.rooms.length > 1 then
    let (floor_tiles, r2) := reg.get_walkable_tiles st.rng
    let (df, r3) :=
      if floor_tiles = [] then reg.get_floor_dark r2
      else (floor_tiles.getD 0 defaultTile, r2)
    let edges := sortByKey (fun e => e.2.2) (roomDistances st.rooms)
    let (_, tiles2, r4) := mstFold st.rooms floor_tiles df edges
      (List.range st.rooms.length) (st.tiles, r3)
    (tiles2, st.rooms, r4)
  else (st.tiles, st.rooms, st.rng)

/-- Dungeon::new_with_room_count. -/
def Dungeon.new_with_room_count (width height : Nat) (reg : TileRegistry)
    (min_rooms max_rooms : Nat) (rng : RngS) : Dungeon × RngS :=
  let (wall_tiles, r1) := reg.get_wall_tiles rng
  let (default_wall, r2) :=
    if wall_tiles = [] then reg.get_wall_dirt_top r1
    else (wall_tiles.getD 0 defaultTile, r1)
  let tiles0 := List.replicate height (List.replicate width default_wall)
  let (tiles, rooms, r3) := generate_rooms tiles0 width height reg
    min_rooms max_rooms r2
  (⟨width, height, tiles, rooms⟩, r3)

/-- Dungeon::new_with_registry. -/
def Dungeon.new_with_registry (width height : Nat) (reg : TileRegistry)
    (rng : RngS) : Dungeon × RngS :=
  Dungeon.new_with_room_count width height reg 8 12 rng

/-! ## Claim theorems: combat (C3, C4, C9) -/

theorem getD_set_self {α : Type} (l : List α) (i : Nat) (a d : α)
    (h : i < l.length) : (l.set i a).getD i d = a := by
  simp [List.getD_eq_getElem?_getD, List.getElem?_set_self, h]

theorem getD_set_ne {α : Type} (l : List α) {i j : Nat} (a d : α)
    (h : i ≠ j) : (l.set i a).getD j d = l.getD j d := by
  simp [List.getD_eq_getElem?_getD, List.getElem?_set_ne h]

set_option maxHeartbeats 1600000 in
theorem attack_entity_core
    (entities : List Entity) (ai ti : Nat) (reg : GameObjectRegistry)
    (cons : List Consumable) (cid : Nat) (rng : RngS)
    (hai : ai < entities.length) (hti : ti < entities.length) :
    ∃ (damage : Nat) (msg : GameMessage),
      1 ≤ damage ∧
      (attack_entity entities ai ti reg cons cid rng).message = some msg ∧
      msg.damage = some damage ∧
      msg.target_died = some ((entities.getD ti dfltEntity).current_health - damage == 0) ∧
      (attack_entity entities ai ti reg cons cid rng).entities.getD ti dfltEntity
        = { entities.getD ti dfltEntity with
            current_health := (entities.getD ti dfltEntity).current_health - damage } := by
  have hb : ¬ (ai ≥ entities.length ∨ ti ≥ entities.length) := by omega
  simp only [attack_entity, if_neg hb, dfltEntity]
  split_ifs <;>
    refine ⟨_, _, by simp [GameMessage.combat, GameMessage.combat_crit], rfl, rfl,
      ?_, ?_⟩
  all_goals
    try (rw [getD_set_ne _ _ _ (show ai ≠ ti by rintro rfl; omega)])
  all_goals try (rw [getD_set_self _ _ _ _ hti])
  all_goals try simp_all [GameMessage.combat, GameMessage.combat_crit]

theorem attack_entity_length (entities : List Entity) (ai ti : Nat)
    (reg : GameObjectRegistry) (cons : List Consumable) (cid : Nat) (rng : RngS) :
    (attack_entity entities ai ti reg cons cid rng).entities.length
      = entities.length := by
  simp only [attack_entity]
  split_ifs <;> simp

set_option maxHeartbeats 800000 in
theorem attack_entity_other (entities : List Entity) (ai ti : Nat)
    (reg : GameObjectRegistry) (cons : List Consumable) (cid : Nat) (rng : RngS)
    (k : Nat) (hka : k ≠ ai) (hkt : k ≠ ti) :
    (attack_entity entities ai ti reg cons cid rng).entities.getD k dfltEntity
      = entities.getD k dfltEntity := by
  simp only [attack_entity, dfltEntity]
  split_ifs
  all_goals try rfl
  all_goals try (rw [getD_set_ne _ _ _ (Ne.symm hka)])
  all_goals rw [getD_set_ne _ _ _ (Ne.symm hkt)]

set_option maxHeartbeats 800000 in
theorem attack_entity_attacker (entities : List Entity) (ai ti : Nat)
    (reg : GameObjectRegistry) (cons : List Consumable) (cid : Nat) (rng : RngS)
    (hai : ai < entities.length) (hti : ti < entities.length) :
    ∃ (fr : Bool) (ch : Nat),
      (attack_entity entities ai ti reg cons cid rng).entities.getD ai dfltEntity
        = { entities.getD ai dfltEntity with
            facing_right := fr, current_health := ch } ∧
      (ai ≠ ti → ch = (entities.getD ai dfltEntity).current_health) := by
  have hb : ¬ (ai ≥ entities.length ∨ ti ≥ entities.length) := by omega
  by_cases hne : ai = ti
  · subst hne
    simp only [attack_entity, if_neg hb, dfltEntity]
    split_ifs with h1 h2 h3
    all_goals try omega
    all_goals rw [getD_set_self _ _ _ _ hai]
    all_goals exact ⟨_, _, rfl, fun h => absurd rfl h⟩
  · simp only [attack_entity, if_neg hb, dfltEntity]
    split_ifs with h1 h2 h3
    all_goals try (
      rw [getD_set_self _ _ _ _ (by simpa using hai),
        getD_set_ne _ _ _ (show ti ≠ ai from Ne.symm hne)]
      exact ⟨_, _, rfl, fun _ => rfl⟩)
    all_goals (
      rw [getD_set_ne _ _ _ (show ti ≠ ai from Ne.symm hne)]
      exact ⟨_, _, rfl, fun _ => rfl⟩)

set_option maxHeartbeats 800000 in
theorem attack_entity_consumables (entities : List Entity) (ai ti : Nat)
    (reg : GameObjectRegistry) (cons : List Consumable) (cid : Nat) (rng : RngS)
    (hai : ai < entities.length) (hti : ti < entities.length) :
    (attack_entity entities ai ti reg cons cid rng).consumables = cons ∨
      ((entities.getD ti dfltEntity).controller = EntityController.AI ∧
       ((attack_entity entities ai ti reg cons cid rng).entities.getD ti
          dfltEntity).current_health = 0 ∧
       ∃ c, (attack_entity entities ai ti reg cons cid rng).consumables
          = cons ++ [c]) := by
  have hb : ¬ (ai ≥ entities.length ∨ ti ≥ entities.length) := by omega
  simp only [attack_entity, if_neg hb, dfltEntity, monsterDrop]
  split_ifs
  all_goals try (exact Or.inl rfl)
  all_goals refine Or.inr ⟨by simp_all, ?_, ?_⟩
  all_goals try (
    rw [getD_set_ne _ _ _ (show ai ≠ ti by rintro rfl; omega)])
  all_goals try (rw [getD_set_self _ _ _ _ hti])
  all_goals try (exact ⟨_, rfl⟩)
  all_goals simp_all

theorem drawCrit_true {c : Nat} {r : RngS} (h : (drawCrit c r).1 = true) :
    0 < c := by
  unfold drawCrit at h
  split_ifs at h with hc
  exact hc

/-- C3: every in-range attack resolution deals at least 1 damage, sets
the target health to max(0, previous - damage), reports death exactly
when the resulting health is 0, and keeps 0 ≤ currentHealth ≤ maxHealth
(the lower bound holds by the Nat type) with maxHealth unchanged.  The
random stream is universally quantified, covering every outcome. -/
theorem combat_attack_postcondition
    (entities : List Entity) (ai ti : Nat) (reg : GameObjectRegistry)
    (cons : List Consumable) (cid : Nat) (rng : RngS)
    (hai : ai < entities.length) (hti : ti < entities.length)
    (hinv : (entities.getD ti dfltEntity).current_health ≤
      (entities.getD ti dfltEntity).max_health) :
    ∃ (damage : Nat) (msg : GameMessage),
      (attack_entity entities ai ti reg cons cid rng).message = some msg ∧
      msg.damage = some damage ∧ 1 ≤ damage ∧
      ((((attack_entity entities ai ti reg cons cid rng).entities.getD ti
          dfltEntity).current_health : Int)
        = max 0 (((entities.getD ti dfltEntity).current_health : Int) - damage)) ∧
      (msg.target_died = some true ↔
        ((attack_entity entities ai ti reg cons cid rng).entities.getD ti
          dfltEntity).current_health = 0) ∧
      ((attack_entity entities ai ti reg cons cid rng).entities.getD ti
          dfltEntity).max_health = (entities.getD ti dfltEntity).max_health ∧
      ((attack_entity entities ai ti reg cons cid rng).entities.getD ti
          dfltEntity).current_health ≤
        ((attack_entity entities ai ti reg cons cid rng).entities.getD ti
          dfltEntity).max_health := by
  obtain ⟨dmg, msg, h1, h2, h3, h4, h5⟩ :=
    attack_entity_core entities ai ti reg cons cid rng hai hti
  refine ⟨dmg, msg, h2, h3, h1, ?_, ?_, ?_, ?_⟩
  · rw [h5]; simp; try omega
  · rw [h4, h5]; simp
  · rw [h5]
  · rw [h5]; simp at hinv ⊢; omega

def combatWitnessAttacker : Entity :=
  Entity.new "wa" 0 0 "m" 5 0 20 10 150 30 EntityController.Player

def combatWitnessTarget : Entity :=
  Entity.new "wb" 1 0 "m" 5 2 0 0 150 30 EntityController.AI

def zeroRng : RngS := ⟨fun _ => 0, 0⟩

/-- Witness for C3 at a concrete two-entity state. -/
theorem combat_attack_postcondition_witness :
    (0 < ([combatWitnessAttacker, combatWitnessTarget] : List Entity).length) ∧
    (∃ (damage : Nat) (msg : GameMessage),
      (attack_entity [combatWitnessAttacker, combatWitnessTarget] 0 1 ⟨[]⟩ [] 0
        zeroRng).message = some msg ∧
      msg.damage = some damage ∧ 1 ≤ damage ∧
      ((((attack_entity [combatWitnessAttacker, combatWitnessTarget] 0 1 ⟨[]⟩ [] 0
          zeroRng).entities.getD 1 dfltEntity).current_health : Int)
        = max 0 ((([combatWitnessAttacker, combatWitnessTarget].getD 1
            dfltEntity).current_health : Int) - damage)) ∧
      (msg.target_died = some true ↔
        ((attack_entity [combatWitnessAttacker, combatWitnessTarget] 0 1 ⟨[]⟩ [] 0
          zeroRng).entities.getD 1 dfltEntity).current_health = 0) ∧
      ((attack_entity [combatWitnessAttacker, combatWitnessTarget] 0 1 ⟨[]⟩ [] 0
          zeroRng).entities.getD 1 dfltEntity).max_health
        = ([combatWitnessAttacker, combatWitnessTarget].getD 1 dfltEntity).max_health ∧
      ((attack_entity [combatWitnessAttacker, combatWitnessTarget] 0 1 ⟨[]⟩ [] 0
          zeroRng).entities.getD 1 dfltEntity).current_health ≤
        ((attack_entity [combatWitnessAttacker, combatWitnessTarget] 0 1 ⟨[]⟩ [] 0
          zeroRng).entities.getD 1 dfltEntity).max_health) :=
  ⟨by decide, combat_attack_postcondition [combatWitnessAttacker, combatWitnessTarget]
    0 1 ⟨[]⟩ [] 0 zeroRng (by decide) (by decide) (by decide)⟩

/-- C9: an in-range attack resolution may change only the target current
health, the attacker facing flag, and the consumables list (one element
appended at most, and only when an AI-controlled target ends at zero
health); every other entity and every other field of the attacker and
target are unchanged. -/
theorem attack_entity_frame
    (entities : List Entity) (ai ti : Nat) (reg : GameObjectRegistry)
    (cons : List Consumable) (cid : Nat) (rng : RngS)
    (hai : ai < entities.length) (hti : ti < entities.length) :
    (attack_entity entities ai ti reg cons cid rng).entities.length
      = entities.length ∧
    (∀ k, k ≠ ai → k ≠ ti →
      (attack_entity entities ai ti reg cons cid rng).entities.getD k dfltEntity
        = entities.getD k dfltEntity) ∧
    (∃ ch : Nat,
      (attack_entity entities ai ti reg cons cid rng).entities.getD ti dfltEntity
        = { entities.getD ti dfltEntity with current_health := ch }) ∧
    (∃ (fr : Bool) (ch : Nat),
      (attack_entity entities ai ti reg cons cid rng).entities.getD ai dfltEntity
        = { entities.getD ai dfltEntity with
            facing_right := fr, current_health := ch } ∧
      (ai ≠ ti → ch = (entities.getD ai dfltEntity).current_health)) ∧
    ((attack_entity entities ai ti reg cons cid rng).consumables = cons ∨
      ((entities.getD ti dfltEntity).controller = EntityController.AI ∧
       ((attack_entity entities ai ti reg cons cid rng).entities.getD ti
          dfltEntity).current_health = 0 ∧
       ∃ c, (attack_entity entities ai ti reg cons cid rng).consumables
          = cons ++ [c])) := by
  obtain ⟨dmg, msg, h1, h2, h3, h4, h5⟩ :=
    attack_entity_core entities ai ti reg cons cid rng hai hti
  exact ⟨attack_entity_length entities ai ti reg cons cid rng,
    fun k hka hkt => attack_entity_other entities ai ti reg cons cid rng k hka hkt,
    ⟨_, h5⟩,
    attack_entity_attacker entities ai ti reg cons cid rng hai hti,
    attack_entity_consumables entities ai ti reg cons cid rng hai hti⟩

/-- Witness for C9 at the same concrete two-entity state. -/
theorem attack_entity_frame_witness :
    (0 < ([combatWitnessAttacker, combatWitnessTarget] : List Entity).length) ∧
    ((attack_entity [combatWitnessAttacker, combatWitnessTarget] 0 1 ⟨[]⟩ [] 0
        zeroRng).entities.length
      = ([combatWitnessAttacker, combatWitnessTarget] : List Entity).length ∧
    (∀ k, k ≠ 0 → k ≠ 1 →
      (attack_entity [combatWitnessAttacker, combatWitnessTarget] 0 1 ⟨[]⟩ [] 0
        zeroRng).entities.getD k dfltEntity
        = [combatWitnessAttacker, combatWitnessTarget].getD k dfltEntity) ∧
    (∃ ch : Nat,
      (attack_entity [combatWitnessAttacker, combatWitnessTarget] 0 1 ⟨[]⟩ [] 0
        zeroRng).entities.getD 1 dfltEntity
        = { [combatWitnessAttacker, combatWitnessTarget].getD 1 dfltEntity with
            current_health := ch }) ∧
    (∃ (fr : Bool) (ch : Nat),
      (attack_entity [combatWitnessAttacker, combatWitnessTarget] 0 1 ⟨[]⟩ [] 0
        zeroRng).entities.getD 0 dfltEntity
        = { [combatWitnessAttacker, combatWitnessTarget].getD 0 dfltEntity with
            facing_right := fr, current_health := ch } ∧
      ((0 : Nat) ≠ 1 → ch = ([combatWitnessAttacker,
          combatWitnessTarget].getD 0 dfltEntity).current_health)) ∧
    ((attack_entity [combatWitnessAttacker, combatWitnessTarget] 0 1 ⟨[]⟩ [] 0
        zeroRng).consumables = [] ∨
      (([combatWitnessAttacker, combatWitnessTarget].getD 1
          dfltEntity).controller = EntityController.AI ∧
       ((attack_entity [combatWitnessAttacker, combatWitnessTarget] 0 1 ⟨[]⟩ [] 0
          zeroRng).entities.getD 1 dfltEntity).current_health = 0 ∧
       ∃ c, (attack_entity [combatWitnessAttacker, combatWitnessTarget] 0 1 ⟨[]⟩
          [] 0 zeroRng).consumables = [] ++ [c]))) :=
  ⟨by decide, attack_entity_frame [combatWitnessAttacker, combatWitnessTarget]
    0 1 ⟨[]⟩ [] 0 zeroRng (by decide) (by decide)⟩

def c4Attacker : Entity :=
  Entity.new "ca" 0 0 "m" 167999 0 101 0 150 10 EntityController.Player

def c4Target : Entity :=
  Entity.new "cb" 1 0 "m" 5 0 0 0 150 1000000 EntityController.AI

def c4Rng : RngS := ⟨fun n => if n = 0 then 339358 else 0, 0⟩

theorem drawSpread_zero (a : Int) (sp : Nat) (r : RngS) (h : sp = 0) :
    (drawSpread a sp r).1 = 0 := by
  simp [drawSpread, h]

theorem drawSpread_bounds (a : Int) (sp : Nat) (r : RngS)
    (h : 0 ≤ spreadRangeF a sp) :
    -(spreadRangeF a sp) ≤ (drawSpread a sp r).1 ∧
      (drawSpread a sp r).1 ≤ spreadRangeF a sp := by
  unfold drawSpread
  split_ifs with hsp
  · simp only [genRangeZI, RngS.next]
    have h1 : ((r.vals r.idx : Int)) % (spreadRangeF a sp - -spreadRangeF a sp + 1) ≥ 0 :=
      Int.emod_nonneg _ (by omega)
    have h2 : ((r.vals r.idx : Int)) % (spreadRangeF a sp - -spreadRangeF a sp + 1)
        < spreadRangeF a sp - -spreadRangeF a sp + 1 :=
      Int.emod_lt_of_pos _ (by omega)
    constructor <;> omega
  · simp; omega

set_option maxRecDepth 40000 in
/-- Counterexample for C4: the spread range and the crit base are f32
computations truncated toward zero, not exact floors.  At attack 167999
and spread 101 the f32 product rounds up, so the code draws spread
amounts up to 169679 while floor(167999*101/100) = 169678, and a full
attack resolution can deal 337678 damage, above the bound the exact
formula admits; at base -5 and crit damage 150 the truncation gives -7
where the floor is -8. -/
theorem combat_damage_floor_counterexample :
    spreadRangeF 167999 101 = 169679 ∧
    (167999 * 101 : Int).fdiv 100 = 169678 ∧
    critBaseF (-5) 150 = -7 ∧
    ((-5 : Int) * 150).fdiv 100 = -8 ∧
    ((attack_entity [c4Attacker, c4Target] 0 1 ⟨[]⟩ [] 0 c4Rng).message.map
      (fun m => m.damage)) = some (some 337678) ∧
    (337678 : Int) > 167999 + (167999 * 101 : Int).fdiv 100 := by
  decide

set_option maxHeartbeats 1600000 in
/-- C4 (amended): the spread range and crit amplification are the f32
evaluations spreadRangeF and critBaseF (truncation toward zero; these
agree with the exact floor for ordinary stat values but not universally,
see the counterexample).  For every random outcome the drawn spread
amount lies in [-spreadRange, spreadRange] whenever that range is
nonnegative, it is exactly 0 when the spread percent is 0, a crit is
only reported when the crit chance is positive, and the reported damage
is max(finalBase - defense, 1) with finalBase the crit-amplified base. -/
theorem combat_damage_arithmetic_amended
    (entities : List Entity) (ai ti : Nat) (reg : GameObjectRegistry)
    (cons : List Consumable) (cid : Nat) (rng : RngS)
    (hai : ai < entities.length) (hti : ti < entities.length) :
    ∃ (sa : Int) (isCrit : Bool) (msg : GameMessage),
      (attack_entity entities ai ti reg cons cid rng).message = some msg ∧
      msg.is_crit = some isCrit ∧
      msg.damage = some (max ((if isCrit then
          critBaseF ((entities.getD ai dfltEntity).attack + sa)
            (entities.getD ai dfltEntity).crit_damage_percent
        else (entities.getD ai dfltEntity).attack + sa) -
          (entities.getD ti dfltEntity).defense) 1).toNat ∧
      ((entities.getD ai dfltEntity).attack_spread_percent = 0 → sa = 0) ∧
      (0 ≤ spreadRangeF (entities.getD ai dfltEntity).attack
          (entities.getD ai dfltEntity).attack_spread_percent →
        -(spreadRangeF (entities.getD ai dfltEntity).attack
            (entities.getD ai dfltEntity).attack_spread_percent) ≤ sa ∧
        sa ≤ spreadRangeF (entities.getD ai dfltEntity).attack
          (entities.getD ai dfltEntity).attack_spread_percent) ∧
      (isCrit = true → 0 < (entities.getD ai dfltEntity).crit_chance_percent) := by
  have hb : ¬ (ai ≥ entities.length ∨ ti ≥ entities.length) := by omega
  simp only [attack_entity, if_neg hb, dfltEntity]
  split_ifs <;>
    refine ⟨_, _, _, rfl, rfl, rfl, fun hz => drawSpread_zero _ _ _ hz,
      fun hr => drawSpread_bounds _ _ _ hr, ?_⟩
  all_goals
    first
    | (intro hc; exact drawCrit_true (by assumption))
    | (intro hc; exact nomatch hc)

def c4Witness : Entity :=
  Entity.new "c4w" 0 0 "m" 10 0 20 50 150 30 EntityController.Player

/-- Witness for the amended C4 at a concrete two-entity state. -/
theorem combat_damage_arithmetic_amended_witness :
    (0 < ([c4Witness, combatWitnessTarget] : List Entity).length) ∧
    (∃ (sa : Int) (isCrit : Bool) (msg : GameMessage),
      (attack_entity [c4Witness, combatWitnessTarget] 0 1 ⟨[]⟩ [] 0
        zeroRng).message = some msg ∧
      msg.is_crit = some isCrit ∧
      msg.damage = some (max ((if isCrit then
          critBaseF (([c4Witness, combatWitnessTarget].getD 0 dfltEntity).attack + sa)
            ([c4Witness, combatWitnessTarget].getD 0 dfltEntity).crit_damage_percent
        else ([c4Witness, combatWitnessTarget].getD 0 dfltEntity).attack + sa) -
          ([c4Witness, combatWitnessTarget].getD 1 dfltEntity).defense) 1).toNat ∧
      (([c4Witness, combatWitnessTarget].getD 0 dfltEntity).attack_spread_percent
          = 0 → sa = 0) ∧
      (0 ≤ spreadRangeF ([c4Witness, combatWitnessTarget].getD 0 dfltEntity).attack
          ([c4Witness, combatWitnessTarget].getD 0 dfltEntity).attack_spread_percent →
        -(spreadRangeF ([c4Witness, combatWitnessTarget].getD 0 dfltEntity).attack
            ([c4Witness, combatWitnessTarget].getD 0
              dfltEntity).attack_spread_percent) ≤ sa ∧
        sa ≤ spreadRangeF ([c4Witness, combatWitnessTarget].getD 0 dfltEntity).attack
          ([c4Witness, combatWitnessTarget].getD 0 dfltEntity).attack_spread_percent) ∧
      (isCrit = true →
        0 < ([c4Witness, combatWitnessTarget].getD 0 dfltEntity).crit_chance_percent)) :=
  ⟨by decide, combat_damage_arithmetic_amended [c4Witness, combatWitnessTarget]
    0 1 ⟨[]⟩ [] 0 zeroRng (by decide) (by decide)⟩

/-! ## Claim theorems: player management (C8, C10) -/

/-- C10: remove_player deletes exactly the player-controlled entities
carrying the given id (keeping the order of the rest), changes no other
coordinator state, and is a no-op when no such entity exists. -/
theorem remove_player_spec (s : GameState) (pid : String) :
    (s.remove_player pid).entities.Sublist s.entities ∧
    (∀ e, e ∈ (s.remove_player pid).entities ↔
      e ∈ s.entities ∧ ¬ (e.id = pid ∧ e.controller = EntityController.Player)) ∧
    (s.remove_player pid).dungeon = s.dungeon ∧
    (s.remove_player pid).consumables = s.consumables ∧
    (s.remove_player pid).chests = s.chests ∧
    (s.remove_player pid).stairs_position = s.stairs_position ∧
    (s.remove_player pid).player_confirmations = s.player_confirmations ∧
    (s.remove_player pid).restart_confirmations = s.restart_confirmations ∧
    (s.remove_player pid).turn_phase = s.turn_phase ∧
    (s.remove_player pid).players_acted_this_turn = s.players_acted_this_turn ∧
    (s.remove_player pid).current_turn = s.current_turn ∧
    ((∀ e ∈ s.entities, ¬ (e.id = pid ∧ e.controller = EntityController.Player)) →
      s.remove_player pid = s) := by
  refine ⟨List.filter_sublist _, ?_, rfl, rfl, rfl, rfl, rfl, rfl, rfl, rfl, rfl, ?_⟩
  · intro e
    simp [GameState.remove_player, List.mem_filter]
    tauto
  · intro h
    show { s with entities := _ } = s
    rw [List.filter_eq_self.mpr ?_]
    · intro e he
      have hh := h e he
      simp
      tauto

/-- Counterexample state for C8: the first living player is walled in,
while the second living player has a free walkable neighbour. -/
def c8PlayerTpl : GameObject :=
  ⟨"player", "Player", "character", false, some 100, some 10, some 0, some 20,
    some 0, some 150, none, none, [], false, none, none, []⟩

def c8WallRow : List Tile :=
  [Tile.mk_ false 0 0, Tile.mk_ false 0 0, Tile.mk_ false 0 0,
    Tile.mk_ false 0 0, Tile.mk_ false 0 0]

def c8Tiles : List (List Tile) :=
  [[Tile.mk_ true 0 0, Tile.mk_ false 0 0, Tile.mk_ false 0 0,
      Tile.mk_ false 0 0, Tile.mk_ false 0 0],
   c8WallRow, c8WallRow,
   [Tile.mk_ false 0 0, Tile.mk_ false 0 0, Tile.mk_ false 0 0,
      Tile.mk_ false 0 0, Tile.mk_ true 0 0],
   c8WallRow]

def c8State : GameState :=
  ⟨⟨5, 5, c8Tiles, []⟩,
    [Entity.new "p1" 2 2 "player" 10 0 20 0 150 100 EntityController.Player,
     Entity.new "p2" 4 4 "player" 10 0 20 0 150 100 EntityController.Player],
    [], [], ⟨[]⟩, ⟨[c8PlayerTpl]⟩, none, [], [], TurnPhase.PlayerPhase, [], 1⟩

/-- Counterexample for C8: a free walkable tile adjacent to a living
player exists (tile (4,3) next to p2), but add_player only probes the
first living player in storage order, falls back to the row-major scan,
and spawns at (0,0), adjacent to no living player. -/
theorem add_player_counterexample :
    (getTileAt c8State.dungeon.tiles 4 3).walkable = true ∧
    (∃ e ∈ c8State.entities, e.controller = EntityController.Player ∧
      e.is_alive ∧ natDist e.x 4 + natDist e.y 3 = 1) ∧
    (¬ c8State.entities.any (fun e => e.x = 4 ∧ e.y = 3 ∧ e.is_alive)) ∧
    (((c8State.add_player "p3").2.entities.getLast?).map (fun e => (e.x, e.y))
      = some (0, 0)) ∧
    (∀ e ∈ c8State.entities, e.is_alive → natDist e.x 0 + natDist e.y 0 ≠ 1) := by
  decide

/-- C8 (amended): add_player returns none and creates nothing iff no
"player" template is registered; otherwise it appends exactly one
player-controlled entity at full health and returns its index, placing
it on the first free walkable tile among the four neighbours of the
first living player in storage order when that probe succeeds, else on
the first free walkable tile in row-major order, else at (1,1). -/
theorem add_player_contract (s : GameState) (pid : String) :
    ((s.add_player pid).1 = none ↔ s.object_registry.get_object "player" = none) ∧
    (s.object_registry.get_object "player" = none → (s.add_player pid).2 = s) ∧
    (∀ tpl, s.object_registry.get_object "player" = some tpl →
      (s.add_player pid).1 = some s.entities.length ∧
      ∃ e, (s.add_player pid).2.entities = s.entities ++ [e] ∧
        e.id = pid ∧ e.controller = EntityController.Player ∧
        e.current_health = e.max_health ∧
        (∀ p, addPlayerAdjSpot s = some p → (e.x, e.y) = p) ∧
        (addPlayerAdjSpot s = none → ∀ p, addPlayerScanSpot s = some p →
          (e.x, e.y) = p) ∧
        (addPlayerAdjSpot s = none → addPlayerScanSpot s = none →
          (e.x, e.y) = (1, 1))) ∧
    (∀ p, addPlayerAdjSpot s = some p →
      ∃ fp, s.entities.find? (fun e => e.controller = EntityController.Player ∧
          e.is_alive) = some fp ∧
        (p = (wsub1 fp.x, fp.y) ∨ p = (fp.x + 1, fp.y) ∨
          p = (fp.x, wsub1 fp.y) ∨ p = (fp.x, fp.y + 1)) ∧
        (getTileAt s.dungeon.tiles p.1 p.2).walkable = true ∧
        ¬ s.entities.any (fun e => e.x = p.1 ∧ e.y = p.2 ∧ e.is_alive)) ∧
    (∀ p, addPlayerScanSpot s = some p →
      (getTileAt s.dungeon.tiles p.1 p.2).walkable = true ∧
      ¬ s.entities.any (fun e => e.x = p.1 ∧ e.y = p.2 ∧ e.is_alive)) := by
  refine ⟨?_, ?_, ?_, ?_, ?_⟩
  · unfold GameState.add_player
    cases h : s.object_registry.get_object "player" <;> simp [h]
  · intro h
    unfold GameState.add_player
    rw [h]
  · intro tpl h
    unfold GameState.add_player
    rw [h]
    refine ⟨rfl, _, rfl, rfl, rfl, rfl, ?_, ?_, ?_⟩
    · intro p hp
      simp [hp, Entity.new]
    · intro hn p hp
      simp [hn, hp, Option.orElse, Entity.new]
    · intro hn hs
      simp [hn, hs, Option.orElse, Entity.new]
  · intro p hp
    unfold addPlayerAdjSpot at hp
    cases hfp : s.entities.find? (fun e =>
        e.controller = EntityController.Player ∧ e.is_alive) with
    | none => rw [hfp] at hp; exact absurd hp (by simp)
    | some fp =>
      rw [hfp] at hp
      have hmem := List.mem_of_find?_eq_some hp
      have hpred := List.find?_some hp
      refine ⟨fp, rfl, ?_, ?_, ?_⟩
      · simpa using hmem
      · simp at hpred
        exact hpred.2.2.1
      · simp at hpred
        simpa using hpred.2.2.2
  · intro p hp
    unfold addPlayerScanSpot at hp
    have hpred := List.find?_some hp
    simp at hpred
    exact ⟨hpred.1, by simpa using hpred.2⟩


/-! ## Claim theorems: AI stepping (C2) -/

/-- Cardinal grid adjacency: equal on one axis, distance one on the other. -/
def Adj1 (a b : Nat × Nat) : Prop :=
  (a.1 = b.1 ∧ natDist a.2 b.2 = 1) ∨ (a.2 = b.2 ∧ natDist a.1 b.1 = 1)

/-- The BFS parent map always links a cell to an earlier-inserted cell:
every value is the start or a key appearing deeper in the list. -/
def ChainsDown : List ((Nat × Nat) × (Nat × Nat)) → (Nat × Nat) → Prop
  | [], _ => True
  | pr :: rest, start => (pr.2 = start ∨ pr.2 ∈ rest.map (·.1)) ∧ ChainsDown rest start

theorem chainsDown_suffix {parent l2 : List ((Nat × Nat) × (Nat × Nat))}
    {start : Nat × Nat} (h : ChainsDown parent start)
    (hs : l2.IsSuffix parent) : ChainsDown l2 start := by
  obtain ⟨l1, rfl⟩ := hs
  induction l1 with
  | nil => exact h
  | cons a l1 ih => exact ih h.2

theorem chainsDown_split {l2 : List ((Nat × Nat) × (Nat × Nat))}
    {start : Nat × Nat} {a : List _} {pr : (Nat × Nat) × (Nat × Nat)} {b : List _}
    (h : ChainsDown l2 start) (he : l2 = a ++ pr :: b) :
    pr.2 = start ∨ pr.2 ∈ b.map (·.1) := by
  subst he
  induction a with
  | nil => exact h.1
  | cons x a ih => exact ih h.2

theorem pathBack_getLast (start : Nat × Nat)
    (parent : List ((Nat × Nat) × (Nat × Nat)))
    (hadj : ∀ pr ∈ parent, Adj1 pr.1 pr.2)
    (hnd : (parent.map (·.1)).Nodup) :
    ∀ (fuel : Nat) (l2 : List ((Nat × Nat) × (Nat × Nat))), l2.IsSuffix parent →
      ChainsDown parent start →
      ∀ (cur : Nat × Nat) (path0 : List (Nat × Nat)),
      (cur = start ∨ cur ∈ l2.map (·.1)) → l2.length < fuel →
      (pathBack fuel cur start parent path0 = path0 ∧ cur = start) ∨
      (∃ c, (pathBack fuel cur start parent path0).getLast? = some c ∧ Adj1 c start) := by
  intro fuel
  induction fuel with
  | zero => intro l2 _ _ cur path0 _ hlt; omega
  | succ fuel ih =>
    intro l2 hsuf hch cur path0 hcur hlt
    by_cases hst : cur = start
    · left
      subst hst
      exact ⟨by simp [pathBack], rfl⟩
    · right
      rcases hcur with hcur | hcur
      · exact absurd hcur hst
      obtain ⟨pr, hprmem, hprkey⟩ := List.exists_of_mem_map hcur
      have hprparent : pr ∈ parent := hsuf.subset hprmem
      have hfind : parent.find? (fun p => p.1 == cur) = some pr := by
        rcases hf : parent.find? (fun p => p.1 == cur) with _ | pr2
        · rw [List.find?_eq_none] at hf
          exact absurd (by simp [hprkey]) (hf pr hprparent)
        · have h2 := List.find?_some hf
          have h2m := List.mem_of_find?_eq_some hf
          simp at h2
          have heq2 : pr2 = pr :=
            List.inj_on_of_nodup_map hnd h2m hprparent (by rw [h2, hprkey])
          rw [hf, heq2]
      obtain ⟨a, b, hab⟩ := List.append_of_mem hprmem
      have hdown := chainsDown_split (chainsDown_suffix hch hsuf) hab
      have hbsuf : b.IsSuffix parent := by
        have : b.IsSuffix l2 := ⟨a ++ [pr], by simp [hab]⟩
        exact this.trans hsuf
      have hblen : b.length < fuel := by
        have := congrArg List.length hab
        simp at this
        omega
      have hrec := ih b hbsuf hch pr.2 (path0 ++ [cur]) (by
        rcases hdown with h | h
        · exact Or.inl h
        · exact Or.inr h) hblen
      have hstep : pathBack (fuel + 1) cur start parent path0
          = pathBack fuel pr.2 start parent (path0 ++ [cur]) := by
        rw [pathBack]
        rw [if_neg hst, hfind]
      rw [hstep]
      rcases hrec with ⟨heq, hcs⟩ | ⟨c, hc, hadjc⟩
      · rw [heq]
        refine ⟨cur, by simp, ?_⟩
        have h3 := hadj pr hprparent
        rw [hprkey, hcs] at h3
        exact h3
      · exact ⟨c, hc, hadjc⟩


/-- The invariant carried by the BFS loop state (queue, visited, parent):
parent pairs are cardinal-adjacent, values chain down toward the start,
keys are distinct and visited, and every queued cell is the start or a
key. -/
def BfsInv (start : Nat × Nat)
    (st : List (Nat × Nat) × List (Nat × Nat) ×
      List ((Nat × Nat) × (Nat × Nat))) : Prop :=
  (∀ pr ∈ st.2.2, Adj1 pr.1 pr.2) ∧
  ChainsDown st.2.2 start ∧
  (st.2.2.map (·.1)).Nodup ∧
  (∀ k ∈ st.2.2.map (·.1), k ∈ st.2.1) ∧
  (∀ q ∈ st.1, q = start ∨ q ∈ st.2.2.map (·.1))

theorem bfsStep_inv (entities : List Entity) (dungeon : Dungeon)
    (selfId : String) (target start cell : Nat × Nat)
    (st : List (Nat × Nat) × List (Nat × Nat) × List ((Nat × Nat) × (Nat × Nat)))
    (n : Nat × Nat)
    (hinv : BfsInv start st)
    (hcell : cell = start ∨ cell ∈ st.2.2.map (·.1))
    (hadjn : n.1 < dungeon.width → n.2 < dungeon.height → Adj1 n cell) :
    BfsInv start (bfsStep entities dungeon selfId target cell st n) ∧
      (cell = start ∨
        cell ∈ (bfsStep entities dungeon selfId target cell st n).2.2.map (·.1)) := by
  obtain ⟨q, v, p⟩ := st
  obtain ⟨hadj, hch, hnd, hkv, hq⟩ := hinv
  unfold bfsStep
  dsimp only
  split_ifs with c1 c2 c3 c4
  all_goals try exact ⟨⟨hadj, hch, hnd, hkv, hq⟩, hcell⟩
  push_neg at c1
  have hnin : n ∉ p.map (·.1) := by
    intro hmem
    have := hkv n hmem
    simp [List.contains] at c2
    exact c2 this
  refine ⟨⟨?_, ⟨hcell, hch⟩, ?_, ?_, ?_⟩, ?_⟩
  · intro pr hpr
    rcases List.mem_cons.mp hpr with h | h
    · subst h; exact hadjn c1.1 c1.2
    · exact hadj pr h
  · simp only [List.map_cons]
    exact List.Nodup.cons hnin hnd
  · intro k hk
    simp only [List.map_cons, List.mem_cons] at hk
    rcases hk with h | h
    · simp [h]
    · simp [hkv k h]
  · intro x hx
    simp only [List.mem_append, List.mem_singleton] at hx
    rcases hx with h | h
    · rcases hq x h with h2 | h2
      · exact Or.inl h2
      · exact Or.inr (by simp [h2])
    · subst h
      exact Or.inr (by simp)
  · rcases hcell with h | h
    · exact Or.inl h
    · exact Or.inr (by simp [h])

theorem bfsExpandFold_inv (entities : List Entity) (dungeon : Dungeon)
    (selfId : String) (target start cell : Nat × Nat) :
    ∀ (ns : List (Nat × Nat)),
      (∀ n ∈ ns, n.1 < dungeon.width → n.2 < dungeon.height → Adj1 n cell) →
      ∀ st, BfsInv start st → (cell = start ∨ cell ∈ st.2.2.map (·.1)) →
      BfsInv start (ns.foldl (bfsStep entities dungeon selfId target cell) st) ∧
        (cell = start ∨ cell ∈
          (ns.foldl (bfsStep entities dungeon selfId target cell) st).2.2.map (·.1)) := by
  intro ns
  induction ns with
  | nil => intro _ st hinv hcell; exact ⟨hinv, hcell⟩
  | cons n ns ih =>
    intro hns st hinv hcell
    simp only [List.foldl_cons]
    have hstep := bfsStep_inv entities dungeon selfId target start cell st n hinv
      hcell (hns n (by simp))
    exact ih (fun m hm => hns m (by simp [hm])) _ hstep.1 hstep.2

theorem bfsExpand_inv (entities : List Entity) (dungeon : Dungeon)
    (selfId : String) (target : Nat × Nat) (start cell : Nat × Nat)
    (hw : dungeon.width ≤ 2 ^ 64 - 1) (hh : dungeon.height ≤ 2 ^ 64 - 1)
    (st : List (Nat × Nat) × List (Nat × Nat) × List ((Nat × Nat) × (Nat × Nat)))
    (hinv : BfsInv start st)
    (hcell : cell = start ∨ cell ∈ st.2.2.map (·.1)) :
    BfsInv start (bfsExpand entities dungeon selfId target cell st) := by
  have hns : ∀ n ∈ [(wsub1 cell.1, cell.2), (cell.1 + 1, cell.2),
      (cell.1, wsub1 cell.2), (cell.1, cell.2 + 1)],
      n.1 < dungeon.width → n.2 < dungeon.height → Adj1 n cell := by
    intro n hn h1 h2
    simp at hn
    have hd : ∀ x y : Nat, x = y + 1 ∨ y = x + 1 → natDist x y = 1 := by
      intro x y hxy; unfold natDist; split_ifs <;> omega
    rcases hn with hn | hn | hn | hn <;> subst hn
    · by_cases h0 : cell.1 = 0
      · exfalso
        simp [wsub1, h0] at h1
        omega
      · have hws : wsub1 cell.1 = cell.1 - 1 := by simp [wsub1, h0]
        exact Or.inr ⟨rfl, hd _ _ (Or.inr (by rw [hws]; omega))⟩
    · exact Or.inr ⟨rfl, hd _ _ (Or.inl rfl)⟩
    · by_cases h0 : cell.2 = 0
      · exfalso
        simp [wsub1, h0] at h2
        omega
      · have hws : wsub1 cell.2 = cell.2 - 1 := by simp [wsub1, h0]
        exact Or.inl ⟨rfl, hd _ _ (Or.inr (by rw [hws]; omega))⟩
    · exact Or.inl ⟨rfl, hd _ _ (Or.inl rfl)⟩
  exact (bfsExpandFold_inv entities dungeon selfId target start cell _ hns st
    hinv hcell).1

theorem sign_of_natDist_one {a b : Nat} (h : natDist a b = 1) :
    ((a : Int) - b).sign.natAbs = 1 := by
  unfold natDist at h
  split_ifs at h with hab
  · have he : (a : Int) - b = 1 := by omega
    rw [he]; rfl
  · have he : (a : Int) - b = -1 := by omega
    rw [he]; rfl

set_option maxHeartbeats 800000 in
theorem bfsLoop_cardinal (entities : List Entity) (dungeon : Dungeon)
    (selfId : String) (start target : Nat × Nat)
    (hw : dungeon.width ≤ 2 ^ 64 - 1) (hh : dungeon.height ≤ 2 ^ 64 - 1) :
    ∀ (fuel : Nat) (queue visited : List (Nat × Nat))
      (parent : List ((Nat × Nat) × (Nat × Nat))),
      BfsInv start (queue, visited, parent) →
      ∀ dx dy, bfsLoop entities dungeon selfId start target fuel queue visited
        parent = some (dx, dy) → dx.natAbs + dy.natAbs = 1 := by
  intro fuel
  induction fuel with
  | zero => intro q v p _ dx dy hres; simp [bfsLoop] at hres
  | succ fuel ih =>
    intro q v p hinv dx dy hres
    rcases q with _ | ⟨cell, rest⟩
    · rw [bfsLoop] at hres
      simp at hres
    · rw [bfsLoop] at hres
      dsimp only at hres
      by_cases hct : cell = target
      · rw [if_pos hct] at hres
        obtain ⟨hadj, hch, hnd, hkv, hq⟩ := hinv
        have htk : target = start ∨ target ∈ p.map (·.1) := by
          have := hq cell (by simp)
          rwa [hct] at this
        have hpb := pathBack_getLast start p hadj hnd (p.length + 1) p
          (List.suffix_refl p) hch target [] htk (by omega)
        rcases hpb with ⟨heq, hts⟩ | ⟨c, hc, hadjc⟩
        · rw [heq] at hres
          simp at hres
        · rw [hc] at hres
          simp at hres
          rcases hres with ⟨hdx, hdy⟩
          rcases hadjc with ⟨h1, h2⟩ | ⟨h1, h2⟩
          · rw [← hdx, ← hdy, h1]
            simp [sign_of_natDist_one h2]
          · rw [← hdx, ← hdy, h1]
            simp [sign_of_natDist_one h2]
      · rw [if_neg hct] at hres
        have hcell : cell = start ∨ cell ∈ p.map (·.1) := hinv.2.2.2.2 cell (by simp)
        have hinv2 : BfsInv start (rest, v, p) := by
          obtain ⟨hadj, hch, hnd, hkv, hq⟩ := hinv
          exact ⟨hadj, hch, hnd, hkv, fun x hx => hq x (by simp [hx])⟩
        have hinv3 := bfsExpand_inv entities dungeon selfId target start cell
          hw hh (rest, v, p) hinv2 hcell
        rcases hE : bfsExpand entities dungeon selfId target cell (rest, v, p)
          with ⟨q1, v1, p1⟩
        rw [hE] at hres hinv3
        exact ih q1 v1 p1 hinv3 dx dy hres


theorem any_set_congr {α : Type} (d : α) :
    ∀ (l : List α) (i : Nat) (v : α) (p : α → Bool),
      p v = p (l.getD i d) → i < l.length → (l.set i v).any p = l.any p := by
  intro l
  induction l with
  | nil => intro i v p _ h; simp at h
  | cons a tl ih =>
    intro i v p hp hi
    cases i with
    | zero => simp at hp ⊢; rw [hp]
    | succ j =>
      simp only [List.set_cons_succ, List.any_cons]
      rw [ih j v p (by simpa using hp) (by simpa using hi)]

theorem faceUpdate_length (l : List Entity) (i : Nat) (dx : Int) :
    (faceUpdate l i dx).length = l.length := by
  unfold faceUpdate; split_ifs <;> simp

theorem faceUpdate_getD_ne (l : List Entity) (i : Nat) (dx : Int) (k : Nat)
    (h : k ≠ i) :
    (faceUpdate l i dx).getD k dfltEntity = l.getD k dfltEntity := by
  unfold faceUpdate
  split_ifs <;> first | rfl | rw [getD_set_ne _ _ _ (Ne.symm h)]

theorem faceUpdate_getD_self (l : List Entity) (i : Nat) (dx : Int)
    (hi : i < l.length) :
    ∃ fr, (faceUpdate l i dx).getD i dfltEntity
      = { l.getD i dfltEntity with facing_right := fr } := by
  unfold faceUpdate
  split_ifs
  · exact ⟨true, getD_set_self _ _ _ _ hi⟩
  · exact ⟨false, getD_set_self _ _ _ _ hi⟩
  · exact ⟨(l.getD i dfltEntity).facing_right, rfl⟩

/-- The movement admission rule stated by the spec for an AI step at an
in-range index: nonnegative destination inside the grid, walkable in the
static tile grid, and not occupied by another living entity. -/
def aiMoveAllowed (entities : List Entity) (dungeon : Dungeon) (idx : Nat)
    (dx dy : Int) : Prop :=
  let e0 := entities.getD idx dfltEntity
  let nx : Int := (e0.x : Int) + dx
  let ny : Int := (e0.y : Int) + dy
  0 ≤ nx ∧ 0 ≤ ny ∧ nx.toNat < dungeon.width ∧ ny.toNat < dungeon.height ∧
  dungeon.is_walkable nx.toNat ny.toNat = true ∧
  entities.any (fun e => e.id ≠ e0.id ∧ e.x = nx.toNat ∧ e.y = ny.toNat ∧
    e.is_alive) = false

theorem aiMoveAllowed_faceUpdate (l : List Entity) (dungeon : Dungeon)
    (idx : Nat) (dx dy : Int) (hi : idx < l.length) :
    aiMoveAllowed (faceUpdate l idx dx) dungeon idx dx dy ↔
      aiMoveAllowed l dungeon idx dx dy := by
  obtain ⟨fr, hfr⟩ := faceUpdate_getD_self l idx dx hi
  unfold aiMoveAllowed
  rw [hfr]
  dsimp only
  constructor
  · intro ⟨h1, h2, h3, h4, h5, h6⟩
    refine ⟨h1, h2, h3, h4, h5, ?_⟩
    unfold faceUpdate at h6
    split_ifs at h6 with hc1 hc2
    · rwa [any_set_congr dfltEntity l idx _ _ (by simp) hi] at h6
    · rwa [any_set_congr dfltEntity l idx _ _ (by simp) hi] at h6
    · exact h6
  · intro ⟨h1, h2, h3, h4, h5, h6⟩
    refine ⟨h1, h2, h3, h4, h5, ?_⟩
    unfold faceUpdate
    split_ifs with hc1 hc2
    · rwa [any_set_congr dfltEntity l idx _ _ (by simp) hi]
    · rwa [any_set_congr dfltEntity l idx _ _ (by simp) hi]
    · exact h6

theorem tryMoveCore_spec (l1 : List Entity) (dungeon : Dungeon)
    (idx : Nat) (dx dy : Int) (hidx : idx < l1.length) :
    (aiMoveAllowed l1 dungeon idx dx dy →
      tryMoveCore l1 dungeon idx dx dy
        = l1.set idx { l1.getD idx dfltEntity with
            x := (((l1.getD idx dfltEntity).x : Int) + dx).toNat,
            y := (((l1.getD idx dfltEntity).y : Int) + dy).toNat }) ∧
    (¬ aiMoveAllowed l1 dungeon idx dx dy →
      tryMoveCore l1 dungeon idx dx dy = l1) := by
  unfold tryMoveCore aiMoveAllowed
  dsimp only
  split_ifs with h1 h2 h3 h4
  · refine ⟨fun ha => ?_, fun _ => rfl⟩
    exfalso
    obtain ⟨a1, a2, a3, a4, a5, a6⟩ := ha
    rcases h2 with h | h <;> omega
  · refine ⟨fun ha => ?_, fun _ => rfl⟩
    rw [ha.2.2.2.2.2] at h4
    simp at h4
  · refine ⟨fun _ => rfl, fun hna => ?_⟩
    push_neg at h2
    exact absurd ⟨h1.1, h1.2, h2.1, h2.2, h3, by simpa using h4⟩ hna
  · exact ⟨fun ha => absurd ha.2.2.2.2.1 h3, fun _ => rfl⟩
  · exact ⟨fun ha => absurd ⟨ha.1, ha.2.1⟩ h1, fun _ => rfl⟩

theorem tryMoveCore_length (l1 : List Entity) (dungeon : Dungeon)
    (idx : Nat) (dx dy : Int) :
    (tryMoveCore l1 dungeon idx dx dy).length = l1.length := by
  unfold tryMoveCore; dsimp only; split_ifs <;> simp

theorem tryMoveCore_getD_ne (l1 : List Entity) (dungeon : Dungeon)
    (idx : Nat) (dx dy : Int) (k : Nat) (h : k ≠ idx) :
    (tryMoveCore l1 dungeon idx dx dy).getD k dfltEntity
      = l1.getD k dfltEntity := by
  unfold tryMoveCore
  dsimp only
  split_ifs <;> first | rfl | rw [getD_set_ne _ _ _ (Ne.symm h)]

theorem tryMoveCore_health (l1 : List Entity) (dungeon : Dungeon)
    (idx : Nat) (dx dy : Int) (k : Nat) :
    ((tryMoveCore l1 dungeon idx dx dy).getD k dfltEntity).current_health
      = (l1.getD k dfltEntity).current_health := by
  by_cases hk : k = idx
  · subst hk
    by_cases hi : k < l1.length
    · unfold tryMoveCore
      dsimp only
      split_ifs <;> first | rfl | (rw [getD_set_self _ _ _ _ hi])
    · unfold tryMoveCore
      dsimp only
      split_ifs <;> first | rfl |
        (rw [List.getD_eq_getElem?_getD, List.getElem?_eq_none (by simp; omega),
          List.getD_eq_getElem?_getD, List.getElem?_eq_none (by omega)])
  · rw [tryMoveCore_getD_ne _ _ _ _ _ _ hk]


/-- Ai::move_entity in terms of the admission rule: the entity moves to
the destination exactly when the rule admits it, and in every case only
the facing flag changes otherwise. -/
theorem ai_move_entity_spec (l : List Entity) (dungeon : Dungeon) (idx : Nat)
    (dx dy : Int) (hi : idx < l.length) :
    ∃ fr,
    (aiMoveAllowed l dungeon idx dx dy →
      Ai.move_entity l dungeon idx dx dy
        = l.set idx { l.getD idx dfltEntity with
            x := (((l.getD idx dfltEntity).x : Int) + dx).toNat,
            y := (((l.getD idx dfltEntity).y : Int) + dy).toNat,
            facing_right := fr }) ∧
    (¬ aiMoveAllowed l dungeon idx dx dy →
      Ai.move_entity l dungeon idx dx dy = faceUpdate l idx dx) := by
  obtain ⟨fr, hfr⟩ := faceUpdate_getD_self l idx dx hi
  have hlen : idx < (faceUpdate l idx dx).length := by
    rw [faceUpdate_length]; exact hi
  refine ⟨fr, fun ha => ?_, fun hna => ?_⟩
  · have ha1 : aiMoveAllowed (faceUpdate l idx dx) dungeon idx dx dy :=
      (aiMoveAllowed_faceUpdate l dungeon idx dx dy hi).mpr ha
    have h1 := (tryMoveCore_spec (faceUpdate l idx dx) dungeon idx dx dy hlen).1 ha1
    unfold Ai.move_entity
    rw [if_neg (by omega), h1, hfr]
    unfold faceUpdate
    split_ifs <;> simp [List.set_set]
  · have hna1 : ¬ aiMoveAllowed (faceUpdate l idx dx) dungeon idx dx dy :=
      fun h => hna ((aiMoveAllowed_faceUpdate l dungeon idx dx dy hi).mp h)
    unfold Ai.move_entity
    rw [if_neg (by omega)]
    exact (tryMoveCore_spec (faceUpdate l idx dx) dungeon idx dx dy hlen).2 hna1

/-- The non-adjacent move branch of the per-monster AI body. -/
theorem processOneAi_move_branch (dungeon : Dungeon) (reg : GameObjectRegistry)
    (player_positions : List (Nat × Nat)) (st : AiOut) (ai_idx : Nat)
    (tx ty : Nat) (sdx sdy : Int)
    (hnp : nearestPlayer player_positions (st.entities.getD ai_idx dfltEntity).x
      (st.entities.getD ai_idx dfltEntity).y = some (tx, ty))
    (hnadj : ¬ ((((tx : Int) - ((st.entities.getD ai_idx dfltEntity).x : Int)).natAbs = 1 ∧
        (ty : Int) - ((st.entities.getD ai_idx dfltEntity).y : Int) = 0) ∨
      ((tx : Int) - ((st.entities.getD ai_idx dfltEntity).x : Int) = 0 ∧
        ((ty : Int) - ((st.entities.getD ai_idx dfltEntity).y : Int)).natAbs = 1)))
    (hfp : find_path_step st.entities dungeon (st.entities.getD ai_idx dfltEntity).x
      (st.entities.getD ai_idx dfltEntity).y tx ty ai_idx = some (sdx, sdy)) :
    processOneAi dungeon reg player_positions st ai_idx
      = { st with entities := Ai.move_entity st.entities dungeon ai_idx sdx sdy } := by
  unfold processOneAi
  dsimp only
  rw [hnp]
  dsimp only
  rw [if_neg hnadj, hfp]

theorem sign_natAbs_le (x : Int) : x.sign.natAbs ≤ 1 := by
  rcases x with (_ | n) | n <;> simp [Int.sign]

def c2Tiles : List (List Tile) :=
  List.replicate 4 (List.replicate 4 (Tile.mk_ true 0 0))

def c2Dungeon : Dungeon := ⟨4, 4, c2Tiles, []⟩

def c2Monster : Entity := Entity.new "m1" 1 1 "skeleton" 3 0 0 0 0 10 .AI

def c2Player : Entity := Entity.new "p1" 2 2 "knight" 3 0 0 0 0 10 .Player

def c2Entities : List Entity := [c2Monster, c2Player]

def c2Reg : GameObjectRegistry := ⟨[]⟩

def c2St : AiOut := ⟨c2Entities, [], 0, zeroRng, []⟩


theorem bfsInv_init (start : Nat × Nat) : BfsInv start ([start], [start], []) :=
  ⟨by simp [List.not_mem_nil], trivial, List.nodup_nil,
    by simp, fun q hq => Or.inl (by simpa using hq)⟩

theorem find_path_step_box (entities : List Entity) (dungeon : Dungeon)
    (sx sy tx ty : Nat) (idx : Nat)
    (hw : dungeon.width ≤ 2 ^ 64 - 1) (hh : dungeon.height ≤ 2 ^ 64 - 1)
    (sdx sdy : Int)
    (hfp : find_path_step entities dungeon sx sy tx ty idx = some (sdx, sdy)) :
    sdx.natAbs ≤ 1 ∧ sdy.natAbs ≤ 1 := by
  unfold find_path_step at hfp
  dsimp only at hfp
  by_cases hbox : ((tx : Int) - (sx : Int)).natAbs ≤ 1 ∧
      ((ty : Int) - (sy : Int)).natAbs ≤ 1
  · rw [if_pos hbox] at hfp
    simp at hfp
    obtain ⟨h1, h2⟩ := hfp
    rw [← h1, ← h2]
    exact ⟨sign_natAbs_le _, sign_natAbs_le _⟩
  · rw [if_neg hbox] at hfp
    rcases hbl : bfsLoop entities dungeon (entities.getD idx dfltEntity).id
        (sx, sy) (tx, ty) (dungeon.width * dungeon.height + 2)
        [(sx, sy)] [(sx, sy)] [] with _ | ⟨dx0, dy0⟩ <;> rw [hbl] at hfp
    · dsimp only at hfp
      split_ifs at hfp
      simp at hfp
      obtain ⟨h1, h2⟩ := hfp
      rw [← h1, ← h2]
      exact ⟨sign_natAbs_le _, sign_natAbs_le _⟩
    · dsimp only at hfp
      simp at hfp
      obtain ⟨h1, h2⟩ := hfp
      have hc := bfsLoop_cardinal entities dungeon
        (entities.getD idx dfltEntity).id (sx, sy) (tx, ty) hw hh
        (dungeon.width * dungeon.height + 2) [(sx, sy)] [(sx, sy)] []
        (bfsInv_init (sx, sy)) dx0 dy0 hbl
      rw [← h1, ← h2]
      omega



/-- C2: the claim fails as stated.  A monster at (1,1) targeting a player
at (2,2) is not orthogonally adjacent, yet find_path_step returns the
diagonal step (1,1), which is not a cardinal unit vector; and although
the destination cell holds the living player, the AI turn resolves no
attack and no move: the entity list is unchanged and no combat message is
produced. -/
theorem ai_step_counterexample :
    (¬ ((((2 : Int) - 1).natAbs = 1 ∧ (2 : Int) - 1 = 0) ∨
      ((2 : Int) - 1 = 0 ∧ ((2 : Int) - 1).natAbs = 1))) ∧
    find_path_step c2Entities c2Dungeon 1 1 2 2 0 = some (1, 1) ∧
    ¬ ((1 : Int).natAbs + (1 : Int).natAbs = 1) ∧
    (c2Entities.any fun e => e.x = 2 ∧ e.y = 2 ∧ e.is_alive ∧
      e.controller = EntityController.Player) = true ∧
    (process_ai_turns c2Entities c2Dungeon c2Reg [] 0 zeroRng).entities
      = c2Entities ∧
    (process_ai_turns c2Entities c2Dungeon c2Reg [] 0 zeroRng).messages = [] := by
  decide



set_option maxRecDepth 4000 in
/-- C2 (amended): a path step found by the BFS search is a cardinal unit
vector, and every step find_path_step returns lies in the closed unit box
(the within-box shortcut and the no-path signum fallback may be
diagonal); applying the step in the non-adjacent branch never resolves an
attack: the result only replaces the entity list by Ai::move_entity,
which moves the monster exactly when the admission rule (in-bounds,
walkable, unoccupied by another living entity) holds, and otherwise
changes at most its facing flag. -/
theorem ai_step_apply (dungeon : Dungeon) (reg : GameObjectRegistry)
    (player_positions : List (Nat × Nat)) (st : AiOut) (ai_idx : Nat)
    (tx ty : Nat) (sdx sdy : Int)
    (hw : dungeon.width ≤ 2 ^ 64 - 1) (hh : dungeon.height ≤ 2 ^ 64 - 1)
    (hi : ai_idx < st.entities.length) :
    (∀ (selfId : String) (start target : Nat × Nat) (fuel : Nat) (dx dy : Int),
      bfsLoop st.entities dungeon selfId start target fuel [start] [start] []
        = some (dx, dy) → dx.natAbs + dy.natAbs = 1) ∧
    (find_path_step st.entities dungeon (st.entities.getD ai_idx dfltEntity).x
        (st.entities.getD ai_idx dfltEntity).y tx ty ai_idx = some (sdx, sdy) →
      sdx.natAbs ≤ 1 ∧ sdy.natAbs ≤ 1) ∧
    (nearestPlayer player_positions (st.entities.getD ai_idx dfltEntity).x
        (st.entities.getD ai_idx dfltEntity).y = some (tx, ty) →
     ¬ ((((tx : Int) - ((st.entities.getD ai_idx dfltEntity).x : Int)).natAbs = 1 ∧
          (ty : Int) - ((st.entities.getD ai_idx dfltEntity).y : Int) = 0) ∨
        ((tx : Int) - ((st.entities.getD ai_idx dfltEntity).x : Int) = 0 ∧
          ((ty : Int) - ((st.entities.getD ai_idx dfltEntity).y : Int)).natAbs = 1)) →
     find_path_step st.entities dungeon (st.entities.getD ai_idx dfltEntity).x
        (st.entities.getD ai_idx dfltEntity).y tx ty ai_idx = some (sdx, sdy) →
      processOneAi dungeon reg player_positions st ai_idx
        = { st with entities := Ai.move_entity st.entities dungeon ai_idx sdx sdy } ∧
      ∃ fr,
        (aiMoveAllowed st.entities dungeon ai_idx sdx sdy →
          Ai.move_entity st.entities dungeon ai_idx sdx sdy
            = st.entities.set ai_idx { st.entities.getD ai_idx dfltEntity with
                x := (((st.entities.getD ai_idx dfltEntity).x : Int) + sdx).toNat,
                y := (((st.entities.getD ai_idx dfltEntity).y : Int) + sdy).toNat,
                facing_right := fr }) ∧
        (¬ aiMoveAllowed st.entities dungeon ai_idx sdx sdy →
          Ai.move_entity st.entities dungeon ai_idx sdx sdy
            = faceUpdate st.entities ai_idx sdx)) := by
  refine ⟨?_, ?_, ?_⟩
  · intro selfId start target fuel dx dy h
    exact bfsLoop_cardinal st.entities dungeon selfId start target hw hh fuel
      [start] [start] [] (bfsInv_init start) dx dy h
  · intro hfp
    exact find_path_step_box st.entities dungeon _ _ tx ty ai_idx hw hh sdx sdy hfp
  · intro hnp hnadj hfp
    refine ⟨processOneAi_move_branch dungeon reg player_positions st ai_idx
      tx ty sdx sdy hnp hnadj hfp, ?_⟩
    exact ai_move_entity_spec st.entities dungeon ai_idx sdx sdy hi

theorem ai_step_apply_witness :
    c2Dungeon.width ≤ 2 ^ 64 - 1 ∧ c2Dungeon.height ≤ 2 ^ 64 - 1 ∧
    0 < c2St.entities.length ∧
    (find_path_step c2St.entities c2Dungeon
        (c2St.entities.getD 0 dfltEntity).x (c2St.entities.getD 0 dfltEntity).y
        2 2 0 = some (1, 1) → (1 : Int).natAbs ≤ 1 ∧ (1 : Int).natAbs ≤ 1) :=
  ⟨by decide, by decide, by decide,
    (ai_step_apply c2Dungeon c2Reg [] c2St 0 2 2 1 1 (by decide) (by decide)
      (by decide)).2.1⟩



/-! ## Claim theorems: turn gating (C1) -/

theorem restartAddPlayer_acted (s : GameState) (xy : Nat × Nat) (pid : String) :
    (restartAddPlayer s xy pid).players_acted_this_turn
      = s.players_acted_this_turn := by
  unfold restartAddPlayer
  dsimp only
  split <;> rfl

theorem foldl_restartAddPlayer_acted (xy : Nat × Nat) :
    ∀ (pids : List String) (st : GameState),
      (pids.foldl (fun st pid => restartAddPlayer st xy pid) st).players_acted_this_turn
        = st.players_acted_this_turn := by
  intro pids
  induction pids with
  | nil => intro st; rfl
  | cons p ps ih =>
    intro st
    simp only [List.foldl_cons]
    rw [ih, restartAddPlayer_acted]

theorem restart_level_acted (s : GameState) (gen : GenOut) :
    (s.restart_level gen).players_acted_this_turn = [] := by
  unfold GameState.restart_level
  dsimp only
  rw [foldl_restartAddPlayer_acted]

theorem move_entity_turn (s : GameState) (idx : Nat) (dx dy : Int) :
    (s.move_entity idx dx dy).current_turn = s.current_turn ∧
    (s.move_entity idx dx dy).players_acted_this_turn
      = s.players_acted_this_turn := by
  unfold GameState.move_entity
  split_ifs <;> exact ⟨rfl, rfl⟩

theorem resolveDestination_turn (s : GameState) (idx : Nat) (eid : String)
    (dx dy : Int) (nx ny : Nat) (cid : Nat) (rng : RngS) :
    (s.resolveDestination idx eid dx dy nx ny cid rng).1.current_turn
      = s.current_turn ∧
    (s.resolveDestination idx eid dx dy nx ny cid rng).1.players_acted_this_turn
      = s.players_acted_this_turn := by
  unfold GameState.resolveDestination
  dsimp only
  split
  · split_ifs <;> exact ⟨rfl, rfl⟩
  · split
    · exact ⟨rfl, rfl⟩
    · have hm := move_entity_turn s idx dx dy
      split_ifs with hc
      all_goals split
      all_goals try split
      all_goals try split
      all_goals simp_all


/-- C1 (amended): process_ai_turns is invoked during handle_command only
at a turn advance, where at the moment of invocation every
currently-alive player id is in the acted-set, or else on an unrecognized
action, where the call sees the unchanged pre-call acted-set and the turn
is not consumed (acted-set and turn counter unchanged); and whenever the
call changes the turn counter the acted-set of the resulting state is
empty. -/
theorem turn_gating (s : GameState) (cmd : PlayerCommand) (player_id : String)
    (gen : GenOut) (cid : Nat) (rng : RngS) :
    (∀ entry ∈ (s.handle_command cmd player_id gen cid rng).aiCalls,
      (∀ q ∈ entry.1, entry.2.contains q = true) ∨
      (¬ (cmd.action = "move_up" ∨ cmd.action = "move_down" ∨
          cmd.action = "move_left" ∨ cmd.action = "move_right") ∧
        entry = (s.alive_player_ids, s.players_acted_this_turn) ∧
        (s.handle_command cmd player_id gen cid rng).state.players_acted_this_turn
          = s.players_acted_this_turn ∧
        (s.handle_command cmd player_id gen cid rng).state.current_turn
          = s.current_turn)) ∧
    ((s.handle_command cmd player_id gen cid rng).state.current_turn
        ≠ s.current_turn →
      (s.handle_command cmd player_id gen cid rng).state.players_acted_this_turn
        = []) := by
  unfold GameState.handle_command
  by_cases h1 : s.are_all_players_dead = true
  · simp only [if_pos h1]
    exact ⟨by simp, fun _ => restart_level_acted s gen⟩
  · simp only [if_neg h1]
    by_cases h2 : cmd.confirm_restart = some true
    · simp only [if_pos h2]
      refine ⟨by simp, ?_⟩
      unfold GameState.confirm_restart
      dsimp only
      split_ifs with hc
      · exact fun _ => restart_level_acted _ gen
      · exact fun h => absurd rfl h
    · simp only [if_neg h2]
      by_cases h3 : cmd.confirm_stairs = some true
      · simp only [if_pos h3]
        refine ⟨by simp, ?_⟩
        unfold GameState.confirm_stairs
        dsimp only
        split_ifs with hc
        · exact fun h => absurd rfl h
        · exact fun h => absurd rfl h
      · simp only [if_neg h3]
        by_cases h4 : s.turn_phase ≠ TurnPhase.PlayerPhase
        · simp only [if_pos h4]
          exact ⟨by simp, fun h => absurd rfl h⟩
        · simp only [if_neg h4]
          by_cases h5 : s.players_acted_this_turn.contains player_id = true
          · simp only [if_pos h5]
            exact ⟨by simp, fun h => absurd rfl h⟩
          · simp only [if_neg h5]
            rcases hidx : s.entities.findIdx? (fun e => e.id = player_id ∧
                e.controller = EntityController.Player) with _ | idx
            · rw [hidx]
              exact ⟨by simp, fun h => absurd rfl h⟩
            · rw [hidx]
              dsimp only
              rcases hstep : (if cmd.action = "move_up" then some ((0 : Int), (-1 : Int))
                  else if cmd.action = "move_down" then some ((0 : Int), (1 : Int))
                  else if cmd.action = "move_left" then some ((-1 : Int), (0 : Int))
                  else if cmd.action = "move_right" then some ((1 : Int), (0 : Int))
                  else none) with _ | ⟨dx, dy⟩
              · dsimp only
                refine ⟨?_, fun h => absurd rfl h⟩
                intro entry hentry
                right
                refine ⟨?_, by simpa using hentry, rfl, rfl⟩
                intro hcon
                rcases hcon with h | h | h | h <;> simp [h] at hstep
              · dsimp only
                split_ifs with hb hall hdead hall2 hdead2
                · exact ⟨by simp, fun _ => rfl⟩
                · refine ⟨?_, fun _ => rfl⟩
                  intro entry hentry
                  left
                  dsimp only at hentry
                  obtain rfl := List.mem_singleton.mp hentry
                  intro q hq
                  exact List.all_eq_true.mp hall.2 q hq
                · refine ⟨by simp, fun h => ?_⟩
                  exact absurd (resolveDestination_turn s idx
                    (s.entities.getD idx dfltEntity).id dx dy _ _ cid rng).1 h
                · exact ⟨by simp, fun _ => rfl⟩
                · refine ⟨?_, fun _ => rfl⟩
                  intro entry hentry
                  left
                  dsimp only at hentry
                  obtain rfl := List.mem_singleton.mp hentry
                  intro q hq
                  exact List.all_eq_true.mp hall2.2 q hq
                · exact ⟨by simp, fun h => absurd rfl h⟩


def c1Tiles : List (List Tile) :=
  List.replicate 4 (List.replicate 4 (Tile.mk_ true 0 0))

def c1Dungeon : Dungeon := ⟨4, 4, c1Tiles, []⟩

def c1P1 : Entity := Entity.new "p1" 0 0 "knight" 3 0 0 0 0 10 .Player

def c1P2 : Entity := Entity.new "p2" 3 3 "knight" 3 0 0 0 0 10 .Player

def c1State : GameState :=
  ⟨c1Dungeon, [c1P1, c1P2], [], [], ⟨[]⟩, ⟨[]⟩, none, [], [],
    TurnPhase.PlayerPhase, [], 5⟩

def c1Cmd : PlayerCommand := ⟨"dance", none, none⟩

def c1Gen : GenOut := ⟨c1Dungeon, [], [], [], none⟩

/-- C1: the gating claim fails as stated.  In a state with two living
players and an empty acted-set, an unrecognized action from p1 invokes
process_ai_turns while neither alive player is in the acted-set; the
turn is not consumed (acted-set stays empty, turn counter and entities
unchanged). -/
theorem turn_gating_counterexample :
    (c1State.handle_command c1Cmd "p1" c1Gen 0 zeroRng).aiCalls
      = [(["p1", "p2"], [])] ∧
    ¬ (∀ q ∈ (["p1", "p2"] : List String), ([] : List String).contains q = true) ∧
    (c1State.handle_command c1Cmd "p1" c1Gen 0 zeroRng).state.players_acted_this_turn
      = [] ∧
    (c1State.handle_command c1Cmd "p1" c1Gen 0 zeroRng).state.current_turn
      = c1State.current_turn ∧
    (c1State.handle_command c1Cmd "p1" c1Gen 0 zeroRng).state.entities
      = c1State.entities := by
  decide


theorem turn_gating_witness :
    ((c1State.handle_command c1Cmd "p1" c1Gen 0 zeroRng).state.current_turn
        ≠ c1State.current_turn →
      (c1State.handle_command c1Cmd "p1" c1Gen 0 zeroRng).state.players_acted_this_turn
        = []) :=
  (turn_gating c1State c1Cmd "p1" c1Gen 0 zeroRng).2



/-! ## Claim theorems: chest opening (C7) -/

def c7Tiles : List (List Tile) :=
  List.replicate 4 (List.replicate 4 (Tile.mk_ true 0 0))

def c7Dungeon : Dungeon := ⟨4, 4, c7Tiles, []⟩

def c7Player : Entity := Entity.new "p1" 0 0 "knight" 3 0 0 0 0 10 .Player

def c7Chest : Chest := ⟨"chest1", 1, 0, "chest", none, false⟩

def c7Potion : GameObject :=
  ⟨"potion", "Potion", "consumable", true, none, none, none, none, none, none,
    none, some 5, [], false, none, none, []⟩

/-- The no-consumable-template state: same scene, empty object registry. -/
def c7eState : GameState :=
  ⟨c7Dungeon, [c7Player], [], [c7Chest], ⟨[]⟩, ⟨[]⟩, none, [], [],
    TurnPhase.PlayerPhase, [], 1⟩

def c7State : GameState :=
  ⟨c7Dungeon, [c7Player], [], [c7Chest], ⟨[]⟩, ⟨[c7Potion]⟩, none, [], [],
    TurnPhase.PlayerPhase, [], 1⟩

def c7Cmd : PlayerCommand := ⟨"move_right", none, none⟩

def c7Gen : GenOut := ⟨c7Dungeon, [], [], [], none⟩

/-- C7 (amended): when the in-bounds destination of a movement command
holds a closed chest, destination resolution sets exactly that chest's
is_open flag to true, never re-closes an open chest, and leaves every
entity (in particular the acting player's position) unchanged; exactly
one consumable drawn from the consumable-typed templates is created at
the tile and the event message is emitted only when at least one such
template is registered, and with no consumable template the chest still
opens but no consumable is created and no event is emitted. -/
theorem chest_opening (s : GameState) (idx : Nat) (eid : String) (dx dy : Int)
    (nx ny : Nat) (cid : Nat) (rng : RngS) (ci : Nat)
    (hci : s.chests.findIdx? (fun c => c.x = nx ∧ c.y = ny ∧ ¬ c.is_open)
      = some ci) :
    (s.resolveDestination idx eid dx dy nx ny cid rng).1.chests
      = s.chests.set ci
          { s.chests.getD ci ⟨"", 0, 0, "", none, false⟩ with is_open := true } ∧
    (s.resolveDestination idx eid dx dy nx ny cid rng).1.entities = s.entities ∧
    (∀ k, (s.chests.getD k ⟨"", 0, 0, "", none, false⟩).is_open = true →
      ((s.resolveDestination idx eid dx dy nx ny cid rng).1.chests.getD k
        ⟨"", 0, 0, "", none, false⟩).is_open = true) ∧
    (s.object_registry.get_all_objects.filter
        (fun o => o.object_type == "consumable") ≠ [] →
      (s.resolveDestination idx eid dx dy nx ny cid rng).1.consumables
        = s.consumables ++ [⟨"consumable_" ++ toString cid, nx, ny,
            ((s.object_registry.get_all_objects.filter
                (fun o => o.object_type == "consumable")).getD
              (genRangeN 0 (s.object_registry.get_all_objects.filter
                (fun o => o.object_type == "consumable")).length rng).1
              (GameObject.mk "" "" "" false none none none none none none none
                none [] false none none [])).id⟩] ∧
      (s.resolveDestination idx eid dx dy nx ny cid rng).2.1
        = [GameMessage.level_event "Chest opened!"] ∧
      (s.resolveDestination idx eid dx dy nx ny cid rng).2.2.1 = cid + 1) ∧
    (s.object_registry.get_all_objects.filter
        (fun o => o.object_type == "consumable") = [] →
      (s.resolveDestination idx eid dx dy nx ny cid rng).1.consumables
        = s.consumables ∧
      (s.resolveDestination idx eid dx dy nx ny cid rng).2.1 = []) := by
  unfold GameState.resolveDestination
  rw [hci]
  dsimp only
  split_ifs with hp
  · refine ⟨rfl, rfl, ?_, fun _ => ⟨rfl, rfl, rfl⟩, fun h => absurd h hp⟩
    intro k hk
    by_cases hkc : k = ci
    · subst hkc
      by_cases hlen : k < s.chests.length
      · rw [getD_set_self _ _ _ _ hlen]
      · rw [List.set_eq_of_length_le (by omega)]
        exact hk
    · rw [getD_set_ne _ _ _ (Ne.symm hkc)]
      exact hk
  · refine ⟨rfl, rfl, ?_, fun h => absurd h hp, fun _ => ⟨rfl, rfl⟩⟩
    intro k hk
    by_cases hkc : k = ci
    · subst hkc
      by_cases hlen : k < s.chests.length
      · rw [getD_set_self _ _ _ _ hlen]
      · rw [List.set_eq_of_length_le (by omega)]
        exact hk
    · rw [getD_set_ne _ _ _ (Ne.symm hkc)]
      exact hk


/-- C7: the claim fails as stated.  With no consumable-typed template in
the registry, a movement command onto a closed chest opens the chest but
creates no consumable and emits no event: the whole command produces an
empty message list while the chest flag flips and the player stays in
place. -/
theorem chest_opening_counterexample :
    (c7eState.handle_command c7Cmd "p1" c7Gen 0 zeroRng).state.chests
      = [{ c7Chest with is_open := true }] ∧
    (c7eState.handle_command c7Cmd "p1" c7Gen 0 zeroRng).state.consumables
      = [] ∧
    (c7eState.handle_command c7Cmd "p1" c7Gen 0 zeroRng).messages = [] ∧
    (c7eState.handle_command c7Cmd "p1" c7Gen 0 zeroRng).state.entities
      = [c7Player] ∧
    (c7eState.handle_command c7Cmd "p1" c7Gen 0 zeroRng).state.current_turn = 2 := by
  decide


theorem chest_opening_witness :
    (c7State.chests.findIdx? (fun c => c.x = 1 ∧ c.y = 0 ∧ ¬ c.is_open)
      = some 0) ∧
    (c7State.resolveDestination 0 "p1" 1 0 1 0 0 zeroRng).1.chests
      = c7State.chests.set 0
          { c7State.chests.getD 0 ⟨"", 0, 0, "", none, false⟩ with
            is_open := true } :=
  ⟨by decide, (chest_opening c7State 0 "p1" 1 0 1 0 0 zeroRng 0 (by decide)).1⟩



/-! ## Claim theorems: room separation (C6) -/

theorem placeLoop_sep (reg : TileRegistry) (width height num_rooms : Nat) :
    ∀ (fuel : Nat) (st : PlaceSt),
      st.rooms.Pairwise (fun a b =>
        roomsTooClose b.x b.y b.width b.height a = false) →
      ((placeLoop reg width height num_rooms fuel st).rooms.Pairwise (fun a b =>
        roomsTooClose b.x b.y b.width b.height a = false)) := by
  intro fuel
  induction fuel with
  | zero => intro st h; exact h
  | succ fuel ih =>
    intro st h
    rw [placeLoop]
    dsimp only
    split_ifs with h1 h2 h3 h4
    all_goals
      first
        | exact h
        | exact ih _ h
        | (apply ih
           refine List.pairwise_append.mpr ⟨h, List.pairwise_singleton _ _, ?_⟩
           intro a ha b hb
           obtain rfl := List.mem_singleton.mp hb
           refine Bool.eq_false_iff.mpr (fun hc => ?_)
           exact absurd (List.any_eq_true.mpr ⟨a, ha, hc⟩) (by assumption))

/-- C6: every two distinct rooms accepted during generation satisfy the
separation test: their bounding boxes expanded by the 2-tile gap never
overlap on both axes simultaneously, because the placement loop rejects
every candidate violating it against any accepted room. -/
theorem room_separation (tiles0 : List (List Tile)) (width height : Nat)
    (reg : TileRegistry) (min_rooms max_rooms : Nat) (rng : RngS) :
    ((generate_rooms tiles0 width height reg min_rooms max_rooms rng).2.1).Pairwise
      (fun a b => ¬ (gapAxis b.x b.width a.x a.width = true ∧
        gapAxis b.y b.height a.y a.height = true)) := by
  have core : ((generate_rooms tiles0 width height reg min_rooms max_rooms
      rng).2.1).Pairwise
      (fun a b => roomsTooClose b.x b.y b.width b.height a = false) := by
    unfold generate_rooms
    dsimp only
    split_ifs with h1 h2 <;>
      exact placeLoop_sep reg width height (genRangeNI min_rooms max_rooms rng).1
        200 ⟨[], tiles0, (genRangeNI min_rooms max_rooms rng).2⟩ List.Pairwise.nil
  refine core.imp ?_
  intro a b hfalse hand
  unfold roomsTooClose at hfalse
  rw [hand.1, hand.2] at hfalse
  simp at hfalse



/-! ## Claim theorems: dungeon connectivity (C5) -/

/-- Walkability of a grid cell (x, y). -/
def walkAt (tiles : List (List Tile)) (p : Nat × Nat) : Prop :=
  (getTileAt tiles p.1 p.2).walkable = true

/-- Reachability through cardinally adjacent walkable tiles: the start is
not required to be walkable, every step lands on a walkable tile. -/
inductive Reach (tiles : List (List Tile)) : (Nat × Nat) → (Nat × Nat) → Prop
  | refl (a : Nat × Nat) : Reach tiles a a
  | step {a b c : Nat × Nat} : Reach tiles a b → Adj1 b c →
      walkAt tiles c → Reach tiles a c

theorem natDist_comm (a b : Nat) : natDist a b = natDist b a := by
  unfold natDist; split_ifs <;> omega

theorem Adj1_symm {a b : Nat × Nat} (h : Adj1 a b) : Adj1 b a := by
  unfold Adj1 at h ⊢
  rcases h with ⟨h1, h2⟩ | ⟨h1, h2⟩
  · exact Or.inl ⟨h1.symm, by rw [natDist_comm]; exact h2⟩
  · exact Or.inr ⟨h1.symm, by rw [natDist_comm]; exact h2⟩

theorem Reach_trans {tiles : List (List Tile)} {a b c : Nat × Nat}
    (h1 : Reach tiles a b) (h2 : Reach tiles b c) : Reach tiles a c := by
  induction h2 with
  | refl => exact h1
  | step _ hadj hw ih => exact Reach.step ih hadj hw

theorem Reach_symm {tiles : List (List Tile)} {a b : Nat × Nat}
    (h : Reach tiles a b) (hwa : walkAt tiles a) :
    walkAt tiles b ∧ Reach tiles b a := by
  induction h with
  | refl => exact ⟨hwa, Reach.refl _⟩
  | step hab hadj hw ih =>
    refine ⟨hw, ?_⟩
    exact Reach_trans (Reach.step (Reach.refl _) (Adj1_symm hadj) ih.1) ih.2

/-- Growth of the walkable cell set. -/
def Wmono (t t1 : List (List Tile)) : Prop :=
  ∀ p, walkAt t p → walkAt t1 p

theorem Wmono_refl (t : List (List Tile)) : Wmono t t := fun _ h => h

theorem Wmono_trans {t1 t2 t3 : List (List Tile)}
    (h1 : Wmono t1 t2) (h2 : Wmono t2 t3) : Wmono t1 t3 :=
  fun p h => h2 p (h1 p h)

theorem Reach_mono {t t1 : List (List Tile)} {a b : Nat × Nat}
    (hm : Wmono t t1) (h : Reach t a b) : Reach t1 a b := by
  induction h with
  | refl => exact Reach.refl _
  | step _ hadj hw ih => exact Reach.step ih hadj (hm _ hw)

/-- The center-connectivity relation threaded through the Kruskal fold:
equality, or a walkable path with walkable endpoints. -/
def RC (tiles : List (List Tile)) (a b : Nat × Nat) : Prop :=
  a = b ∨ (Reach tiles a b ∧ walkAt tiles a ∧ walkAt tiles b)

theorem RC_refl (tiles : List (List Tile)) (a : Nat × Nat) : RC tiles a a :=
  Or.inl rfl

theorem RC_symm {tiles : List (List Tile)} {a b : Nat × Nat}
    (h : RC tiles a b) : RC tiles b a := by
  rcases h with rfl | ⟨hr, hwa, hwb⟩
  · exact Or.inl rfl
  · exact Or.inr ⟨(Reach_symm hr hwa).2, hwb, hwa⟩

theorem RC_trans {tiles : List (List Tile)} {a b c : Nat × Nat}
    (h1 : RC tiles a b) (h2 : RC tiles b c) : RC tiles a c := by
  rcases h1 with rfl | ⟨hr1, hwa, hwb⟩
  · exact h2
  · rcases h2 with rfl | ⟨hr2, _, hwc⟩
    · exact Or.inr ⟨hr1, hwa, hwb⟩
    · exact Or.inr ⟨Reach_trans hr1 hr2, hwa, hwc⟩

theorem RC_mono {t t1 : List (List Tile)} {a b : Nat × Nat}
    (hm : Wmono t t1) (h : RC t a b) : RC t1 a b := by
  rcases h with rfl | ⟨hr, hwa, hwb⟩
  · exact Or.inl rfl
  · exact Or.inr ⟨Reach_mono hm hr, hm _ hwa, hm _ hwb⟩

/-- Fixed rectangular dimensions of the tile grid. -/
def Dims (tiles : List (List Tile)) (W H : Nat) : Prop :=
  tiles.length = H ∧ ∀ row ∈ tiles, row.length = W

theorem setTileAt_dims {t : List (List Tile)} {W H : Nat} (x y : Nat)
    (tile : Tile) (hd : Dims t W H) : Dims (setTileAt t x y tile) W H := by
  obtain ⟨h1, h2⟩ := hd
  refine ⟨by simp [setTileAt, h1], ?_⟩
  intro row hrow
  unfold setTileAt at hrow
  by_cases hy : y < t.length
  · rcases List.mem_or_eq_of_mem_set hrow with h | h
    · exact h2 row h
    · subst h
      rw [List.length_set]
      have hg : t.getD y [] = t[y] := by
        rw [List.getD_eq_getElem?_getD, List.getElem?_eq_getElem hy]
        rfl
      rw [hg]
      exact h2 _ (List.getElem_mem hy)
  · rw [List.set_eq_of_length_le (by omega)] at hrow
    exact h2 row hrow


theorem walkAt_setTileAt {t : List (List Tile)} {tile : Tile}
    (hw : tile.walkable = true) (x y : Nat) :
    Wmono t (setTileAt t x y tile) := by
  intro p hp
  unfold walkAt getTileAt at hp ⊢
  unfold setTileAt
  by_cases hy : p.2 = y
  · subst hy
    by_cases hyl : p.2 < t.length
    · rw [getD_set_self _ _ _ _ hyl]
      by_cases hx : p.1 = x
      · subst hx
        by_cases hxl : p.1 < (t.getD p.2 []).length
        · rw [getD_set_self _ _ _ _ hxl]; exact hw
        · rw [List.set_eq_of_length_le (by omega)]; exact hp
      · rw [getD_set_ne _ _ _ (fun he => hx he.symm)]; exact hp
    · rw [List.set_eq_of_length_le (by omega)]; exact hp
  · rw [getD_set_ne _ _ _ (fun he => hy he.symm)]; exact hp

theorem getD_mem_of_lt {α : Type} {l : List α} {i : Nat} (d : α)
    (h : i < l.length) : l.getD i d ∈ l := by
  have hg : l.getD i d = l[i] := by
    rw [List.getD_eq_getElem?_getD, List.getElem?_eq_getElem h]
    rfl
  rw [hg]
  exact List.getElem_mem h

theorem walkAt_setTileAt_self {t : List (List Tile)} {W H : Nat}
    (hd : Dims t W H) {tile : Tile} (hw : tile.walkable = true)
    {x y : Nat} (hx : x < W) (hy : y < H) :
    walkAt (setTileAt t x y tile) (x, y) := by
  obtain ⟨h1, h2⟩ := hd
  unfold walkAt getTileAt setTileAt
  dsimp only
  have hyl : y < t.length := by omega
  rw [getD_set_self _ _ _ _ hyl]
  have hrl : (t.getD y []).length = W := h2 _ (getD_mem_of_lt [] hyl)
  rw [getD_set_self _ _ _ _ (by omega)]
  exact hw

theorem randomize_sprite_walkable (t : Tile) (r : RngS) :
    ((t.randomize_sprite r).1).walkable = t.walkable := by
  unfold Tile.randomize_sprite
  split_ifs <;> rfl

theorem corridorTile_walkable {floor_tiles : List Tile} (df : Tile) (r : RngS)
    (hne : floor_tiles ≠ []) (hall : ∀ t ∈ floor_tiles, t.walkable = true) :
    ((corridorTile floor_tiles df r).1).walkable = true := by
  unfold corridorTile
  dsimp only
  rw [if_pos hne]
  dsimp only
  rw [randomize_sprite_walkable]
  refine hall _ (getD_mem_of_lt _ ?_)
  have hlen : 0 < floor_tiles.length := List.length_pos.mpr hne
  unfold genRangeN RngS.next
  dsimp only
  simp only [Nat.sub_zero]
  have := Nat.mod_lt (r.vals r.idx) hlen
  omega


theorem carveH_mono {floor_tiles : List Tile} (df : Tile) {W H : Nat}
    (hne : floor_tiles ≠ []) (hall : ∀ t ∈ floor_tiles, t.walkable = true)
    (y : Nat) :
    ∀ (xs : List Nat) (st : List (List Tile) × RngS), Dims st.1 W H →
      Dims (carveH floor_tiles df y xs st).1 W H ∧
      Wmono st.1 (carveH floor_tiles df y xs st).1 := by
  intro xs
  induction xs with
  | nil => intro st hd; exact ⟨hd, Wmono_refl _⟩
  | cons x xs ih =>
    intro st hd
    rw [carveH, List.foldl_cons]
    by_cases hg : y < st.1.length ∧ x < (st.1.getD 0 []).length
    · rw [if_pos hg]
      have hd1 : Dims (setTileAt st.1 x y (corridorTile floor_tiles df st.2).1) W H :=
        setTileAt_dims x y _ hd
      have h1 := ih (setTileAt st.1 x y (corridorTile floor_tiles df st.2).1,
        (corridorTile floor_tiles df st.2).2) hd1
      unfold carveH at h1
      exact ⟨h1.1, Wmono_trans (walkAt_setTileAt
        (corridorTile_walkable df st.2 hne hall) x y) h1.2⟩
    · rw [if_neg hg]
      have h1 := ih st hd
      unfold carveH at h1
      exact h1


theorem carveH_covers {floor_tiles : List Tile} (df : Tile) {W H : Nat}
    (hne : floor_tiles ≠ []) (hall : ∀ t ∈ floor_tiles, t.walkable = true)
    (y : Nat) (hy : y < H) :
    ∀ (xs : List Nat) (st : List (List Tile) × RngS), Dims st.1 W H →
      ∀ x ∈ xs, x < W → walkAt (carveH floor_tiles df y xs st).1 (x, y) := by
  intro xs
  induction xs with
  | nil => intro st _ x hx; exact absurd hx (List.not_mem_nil x)
  | cons x0 xs ih =>
    intro st hd x hx hxw
    rw [carveH, List.foldl_cons]
    have hg : y < st.1.length ∧ x0 < (st.1.getD 0 []).length ∨ True := Or.inr trivial
    rcases List.mem_cons.mp hx with rfl | hx2
    · have hgg : y < st.1.length ∧ x < (st.1.getD 0 []).length := by
        obtain ⟨h1, h2⟩ := hd
        have hr : (st.1.getD 0 []).length = W :=
          h2 _ (getD_mem_of_lt [] (by omega))
        omega
      rw [if_pos hgg]
      have hd1 : Dims (setTileAt st.1 x y (corridorTile floor_tiles df st.2).1) W H :=
        setTileAt_dims x y _ hd
      have hm := carveH_mono df hne hall y xs
        (setTileAt st.1 x y (corridorTile floor_tiles df st.2).1,
          (corridorTile floor_tiles df st.2).2) hd1
      unfold carveH at hm
      refine hm.2 _ ?_
      exact walkAt_setTileAt_self hd (corridorTile_walkable df st.2 hne hall) hxw hy
    · by_cases hgg : y < st.1.length ∧ x0 < (st.1.getD 0 []).length
      · rw [if_pos hgg]
        have hd1 : Dims (setTileAt st.1 x0 y (corridorTile floor_tiles df st.2).1) W H :=
          setTileAt_dims x0 y _ hd
        have h1 := ih (setTileAt st.1 x0 y (corridorTile floor_tiles df st.2).1,
          (corridorTile floor_tiles df st.2).2) hd1 x hx2 hxw
        unfold carveH at h1
        exact h1
      · rw [if_neg hgg]
        have h1 := ih st hd x hx2 hxw
        unfold carveH at h1
        exact h1

theorem carveV_mono {floor_tiles : List Tile} (df : Tile) {W H : Nat}
    (hne : floor_tiles ≠ []) (hall : ∀ t ∈ floor_tiles, t.walkable = true)
    (x : Nat) :
    ∀ (ys : List Nat) (st : List (List Tile) × RngS), Dims st.1 W H →
      Dims (carveV floor_tiles df x ys st).1 W H ∧
      Wmono st.1 (carveV floor_tiles df x ys st).1 := by
  intro ys
  induction ys with
  | nil => intro st hd; exact ⟨hd, Wmono_refl _⟩
  | cons y ys ih =>
    intro st hd
    rw [carveV, List.foldl_cons]
    by_cases hg : y < st.1.length ∧ x < (st.1.getD 0 []).length
    · rw [if_pos hg]
      have hd1 : Dims (setTileAt st.1 x y (corridorTile floor_tiles df st.2).1) W H :=
        setTileAt_dims x y _ hd
      have h1 := ih (setTileAt st.1 x y (corridorTile floor_tiles df st.2).1,
        (corridorTile floor_tiles df st.2).2) hd1
      unfold carveV at h1
      exact ⟨h1.1, Wmono_trans (walkAt_setTileAt
        (corridorTile_walkable df st.2 hne hall) x y) h1.2⟩
    · rw [if_neg hg]
      have h1 := ih st hd
      unfold carveV at h1
      exact h1

theorem carveV_covers {floor_tiles : List Tile} (df : Tile) {W H : Nat}
    (hne : floor_tiles ≠ []) (hall : ∀ t ∈ floor_tiles, t.walkable = true)
    (x : Nat) (hx : x < W) :
    ∀ (ys : List Nat) (st : List (List Tile) × RngS), Dims st.1 W H →
      ∀ y ∈ ys, y < H → walkAt (carveV floor_tiles df x ys st).1 (x, y) := by
  intro ys
  induction ys with
  | nil => intro st _ y hy; exact absurd hy (List.not_mem_nil y)
  | cons y0 ys ih =>
    intro st hd y hy hyh
    rw [carveV, List.foldl_cons]
    rcases List.mem_cons.mp hy with rfl | hy2
    · have hgg : y < st.1.length ∧ x < (st.1.getD 0 []).length := by
        obtain ⟨h1, h2⟩ := hd
        have hr : (st.1.getD 0 []).length = W :=
          h2 _ (getD_mem_of_lt [] (by omega))
        omega
      rw [if_pos hgg]
      have hd1 : Dims (setTileAt st.1 x y (corridorTile floor_tiles df st.2).1) W H :=
        setTileAt_dims x y _ hd
      have hm := carveV_mono df hne hall x ys
        (setTileAt st.1 x y (corridorTile floor_tiles df st.2).1,
          (corridorTile floor_tiles df st.2).2) hd1
      unfold carveV at hm
      refine hm.2 _ ?_
      exact walkAt_setTileAt_self hd (corridorTile_walkable df st.2 hne hall) hx hyh
    · by_cases hgg : y0 < st.1.length ∧ x < (st.1.getD 0 []).length
      · rw [if_pos hgg]
        have hd1 : Dims (setTileAt st.1 x y0 (corridorTile floor_tiles df st.2).1) W H :=
          setTileAt_dims x y0 _ hd
        have h1 := ih (setTileAt st.1 x y0 (corridorTile floor_tiles df st.2).1,
          (corridorTile floor_tiles df st.2).2) hd1 y hy2 hyh
        unfold carveV at h1
        exact h1
      · rw [if_neg hgg]
        have h1 := ih st hd y hy2 hyh
        unfold carveV at h1
        exact h1


theorem reach_row {t : List (List Tile)} {y0 : Nat} :
    ∀ (n a : Nat), (∀ k, k ≤ n → walkAt t (a + k, y0)) →
      Reach t (a, y0) (a + n, y0) := by
  intro n
  induction n with
  | zero => intro a _; exact Reach.refl _
  | succ n ih =>
    intro a h
    refine Reach.step (ih a (fun k hk => h k (by omega))) ?_ (h (n + 1) (by omega))
    exact Or.inr ⟨rfl, by unfold natDist; split_ifs <;> omega⟩

theorem reach_col {t : List (List Tile)} {x0 : Nat} :
    ∀ (n a : Nat), (∀ k, k ≤ n → walkAt t (x0, a + k)) →
      Reach t (x0, a) (x0, a + n) := by
  intro n
  induction n with
  | zero => intro a _; exact Reach.refl _
  | succ n ih =>
    intro a h
    refine Reach.step (ih a (fun k hk => h k (by omega))) ?_ (h (n + 1) (by omega))
    exact Or.inl ⟨rfl, by unfold natDist; split_ifs <;> omega⟩

theorem reach_row_between {t : List (List Tile)} {y0 a b : Nat}
    (h : ∀ x, min a b ≤ x → x ≤ max a b → walkAt t (x, y0)) :
    Reach t (a, y0) (b, y0) := by
  rcases Nat.le_total a b with hab | hab
  · have hr := reach_row (b - a) a (fun k hk => h (a + k) (by omega) (by omega))
    rwa [show a + (b - a) = b by omega] at hr
  · have hr := reach_row (a - b) b (fun k hk => h (b + k) (by omega) (by omega))
    rw [show b + (a - b) = a by omega] at hr
    exact (Reach_symm hr (h b (by omega) (by omega))).2

theorem reach_col_between {t : List (List Tile)} {x0 a b : Nat}
    (h : ∀ y, min a b ≤ y → y ≤ max a b → walkAt t (x0, y)) :
    Reach t (x0, a) (x0, b) := by
  rcases Nat.le_total a b with hab | hab
  · have hr := reach_col (b - a) a (fun k hk => h (a + k) (by omega) (by omega))
    rwa [show a + (b - a) = b by omega] at hr
  · have hr := reach_col (a - b) b (fun k hk => h (b + k) (by omega) (by omega))
    rw [show b + (a - b) = a by omega] at hr
    exact (Reach_symm hr (h b (by omega) (by omega))).2


theorem mem_rangeIncl {a b x : Nat} (h1 : min a b ≤ x) (h2 : x ≤ max a b) :
    x ∈ rangeIncl a b := by
  unfold rangeIncl
  rw [List.mem_range'_1]
  omega

theorem carveCorridor_conn {floor_tiles : List Tile} (df : Tile) {W H : Nat}
    (hne : floor_tiles ≠ []) (hall : ∀ t ∈ floor_tiles, t.walkable = true)
    (c1 c2 : Nat × Nat) (st : List (List Tile) × RngS)
    (hd : Dims st.1 W H)
    (hc1 : c1.1 < W ∧ c1.2 < H) (hc2 : c2.1 < W ∧ c2.2 < H) :
    Dims (carveCorridor floor_tiles df c1 c2 st).1 W H ∧
    Wmono st.1 (carveCorridor floor_tiles df c1 c2 st).1 ∧
    Reach (carveCorridor floor_tiles df c1 c2 st).1 c1 c2 ∧
    walkAt (carveCorridor floor_tiles df c1 c2 st).1 c1 ∧
    walkAt (carveCorridor floor_tiles df c1 c2 st).1 c2 := by
  unfold carveCorridor
  dsimp only
  split_ifs with hdir
  · have hH := carveH_mono df hne hall c1.2 (rangeIncl c1.1 c2.1) st hd
    have hHc := carveH_covers df hne hall c1.2 hc1.2 (rangeIncl c1.1 c2.1) st hd
    have hV := carveV_mono df hne hall c2.1 (rangeIncl c1.2 c2.2)
      (carveH floor_tiles df c1.2 (rangeIncl c1.1 c2.1) st) hH.1
    have hVc := carveV_covers df hne hall c2.1 hc2.1 (rangeIncl c1.2 c2.2)
      (carveH floor_tiles df c1.2 (rangeIncl c1.1 c2.1) st) hH.1
    have wH : ∀ x, min c1.1 c2.1 ≤ x → x ≤ max c1.1 c2.1 →
        walkAt (carveV floor_tiles df c2.1 (rangeIncl c1.2 c2.2)
          (carveH floor_tiles df c1.2 (rangeIncl c1.1 c2.1) st)).1 (x, c1.2) := by
      intro x hx1 hx2
      refine hV.2 _ (hHc x (mem_rangeIncl hx1 hx2) ?_)
      rcases max_cases c1.1 c2.1 with ⟨hm, _⟩ | ⟨hm, _⟩ <;> omega
    have wV : ∀ y, min c1.2 c2.2 ≤ y → y ≤ max c1.2 c2.2 →
        walkAt (carveV floor_tiles df c2.1 (rangeIncl c1.2 c2.2)
          (carveH floor_tiles df c1.2 (rangeIncl c1.1 c2.1) st)).1 (c2.1, y) := by
      intro y hy1 hy2
      refine hVc y (mem_rangeIncl hy1 hy2) ?_
      rcases max_cases c1.2 c2.2 with ⟨hm, _⟩ | ⟨hm, _⟩ <;> omega
    refine ⟨hV.1, Wmono_trans hH.2 hV.2, ?_, ?_, ?_⟩
    · exact Reach_trans (reach_row_between wH) (reach_col_between wV)
    · exact wH c1.1 (Nat.min_le_left _ _) (Nat.le_max_left _ _)
    · exact wV c2.2 (Nat.min_le_right _ _) (Nat.le_max_right _ _)
  · have hV := carveV_mono df hne hall c1.1 (rangeIncl c1.2 c2.2) st hd
    have hVc := carveV_covers df hne hall c1.1 hc1.1 (rangeIncl c1.2 c2.2) st hd
    have hH := carveH_mono df hne hall c2.2 (rangeIncl c1.1 c2.1)
      (carveV floor_tiles df c1.1 (rangeIncl c1.2 c2.2) st) hV.1
    have hHc := carveH_covers df hne hall c2.2 hc2.2 (rangeIncl c1.1 c2.1)
      (carveV floor_tiles df c1.1 (rangeIncl c1.2 c2.2) st) hV.1
    have wV : ∀ y, min c1.2 c2.2 ≤ y → y ≤ max c1.2 c2.2 →
        walkAt (carveH floor_tiles df c2.2 (rangeIncl c1.1 c2.1)
          (carveV floor_tiles df c1.1 (rangeIncl c1.2 c2.2) st)).1 (c1.1, y) := by
      intro y hy1 hy2
      refine hH.2 _ (hVc y (mem_rangeIncl hy1 hy2) ?_)
      rcases max_cases c1.2 c2.2 with ⟨hm, _⟩ | ⟨hm, _⟩ <;> omega
    have wH : ∀ x, min c1.1 c2.1 ≤ x → x ≤ max c1.1 c2.1 →
        walkAt (carveH floor_tiles df c2.2 (rangeIncl c1.1 c2.1)
          (carveV floor_tiles df c1.1 (rangeIncl c1.2 c2.2) st)).1 (x, c2.2) := by
      intro x hx1 hx2
      refine hHc x (mem_rangeIncl hx1 hx2) ?_
      rcases max_cases c1.1 c2.1 with ⟨hm, _⟩ | ⟨hm, _⟩ <;> omega
    refine ⟨hH.1, Wmono_trans hV.2 hH.2, ?_, ?_, ?_⟩
    · exact Reach_trans (reach_col_between wV) (reach_row_between wH)
    · exact wV c1.2 (Nat.min_le_left _ _) (Nat.le_max_left _ _)
    · exact wH c2.1 (Nat.min_le_right _ _) (Nat.le_max_right _ _)


/-- The centre of room k of the accepted list. -/
def cIdx (rooms : List Room) (k : Nat) : Nat × Nat :=
  roomCenter (rooms.getD k ⟨0, 0, 0, 0⟩)

/-- The invariant carried through the union-find: every parent entry is a
room index whose centre is RC-connected to its key room centre. -/
def PInv (rooms : List Room) (tiles : List (List Tile)) (p : List Nat) : Prop :=
  ∀ k, k < rooms.length → p.getD k k < rooms.length ∧
    RC tiles (cIdx rooms k) (cIdx rooms (p.getD k k))

theorem findC_rc (rooms : List Room) (tiles : List (List Tile)) :
    ∀ (fuel : Nat) (p : List Nat) (x : Nat),
      PInv rooms tiles p → x < rooms.length →
      (findC fuel p x).1 < rooms.length ∧
      RC tiles (cIdx rooms x) (cIdx rooms (findC fuel p x).1) ∧
      PInv rooms tiles (findC fuel p x).2 := by
  intro fuel
  induction fuel with
  | zero =>
    intro p x hp hx
    exact ⟨(hp x hx).1, (hp x hx).2, hp⟩
  | succ fuel ih =>
    intro p x hp hx
    rw [findC]
    dsimp only
    split_ifs with hpx
    · exact ⟨hx, RC_refl _ _, hp⟩
    · have hih := ih p (p.getD x x) hp (hp x hx).1
      dsimp only
      refine ⟨hih.1, RC_trans (hp x hx).2 hih.2.1, ?_⟩
      intro k hk
      by_cases hkx : k = x
      · subst hkx
        by_cases hkl : k < (findC fuel p (p.getD k k)).2.length
        · rw [getD_set_self _ _ _ _ hkl]
          exact ⟨hih.1, RC_trans (hp k hk).2 hih.2.1⟩
        · rw [List.set_eq_of_length_le (by omega)]
          exact hih.2.2 k hk
      · rw [getD_set_ne _ _ _ (fun he => hkx he.symm)]
        exact hih.2.2 k hk

theorem unionC_rc (rooms : List Room) (tiles : List (List Tile))
    (fuel : Nat) (p : List Nat) (x y : Nat)
    (hp : PInv rooms tiles p) (hx : x < rooms.length) (hy : y < rooms.length) :
    ((unionC fuel p x y).1 = false →
      PInv rooms tiles (unionC fuel p x y).2 ∧
      RC tiles (cIdx rooms x) (cIdx rooms y)) ∧
    ((unionC fuel p x y).1 = true →
      ∀ tiles1, Wmono tiles tiles1 →
        RC tiles1 (cIdx rooms x) (cIdx rooms y) →
        PInv rooms tiles1 (unionC fuel p x y).2) := by
  have h1 := findC_rc rooms tiles fuel p x hp hx
  have h2 := findC_rc rooms tiles fuel (findC fuel p x).2 y h1.2.2 hy
  unfold unionC
  dsimp only
  split_ifs with hne
  · refine ⟨fun hfalse => by simp at hfalse, fun _ => ?_⟩
    intro tiles1 hmono hrc
    intro k hk
    have hinv2 := h2.2.2
    by_cases hky : k = (findC fuel (findC fuel p x).2 y).1
    · by_cases hkl : (findC fuel (findC fuel p x).2 y).1
          < (findC fuel (findC fuel p x).2 y).2.length
      · rw [hky, getD_set_self _ _ _ _ hkl]
        refine ⟨h1.1, ?_⟩
        have hry : RC tiles (cIdx rooms (findC fuel (findC fuel p x).2 y).1)
            (cIdx rooms y) := RC_symm h2.2.1
        exact RC_trans (RC_mono hmono hry)
          (RC_trans (RC_symm hrc) (RC_mono hmono h1.2.1))
      · rw [List.set_eq_of_length_le (by omega)]
        have := hinv2 k hk
        exact ⟨this.1, RC_mono hmono this.2⟩
    · rw [getD_set_ne _ _ _ (fun he => hky he.symm)]
      have := hinv2 k hk
      exact ⟨this.1, RC_mono hmono this.2⟩
  · refine ⟨fun _ => ⟨h2.2.2, ?_⟩, fun htrue => by simp at htrue⟩
    push_neg at hne
    have : RC tiles (cIdx rooms y) (cIdx rooms (findC fuel p x).1) := by
      rw [← hne] at h2
      exact h2.2.1
    exact RC_trans h1.2.1 (RC_symm this)


theorem mstFold_conn (rooms : List Room) {floor_tiles : List Tile} (df : Tile)
    {W H : Nat} (hne : floor_tiles ≠ [])
    (hall : ∀ t ∈ floor_tiles, t.walkable = true)
    (hcb : ∀ k, k < rooms.length → (cIdx rooms k).1 < W ∧ (cIdx rooms k).2 < H) :
    ∀ (edges : List (Nat × Nat × Nat)) (parent : List Nat)
      (tiles : List (List Tile)) (rng : RngS),
      Dims tiles W H → PInv rooms tiles parent →
      (∀ e ∈ edges, e.1 < rooms.length ∧ e.2.1 < rooms.length) →
      Dims (mstFold rooms floor_tiles df edges parent (tiles, rng)).2.1 W H ∧
      Wmono tiles (mstFold rooms floor_tiles df edges parent (tiles, rng)).2.1 ∧
      ∀ e ∈ edges,
        RC (mstFold rooms floor_tiles df edges parent (tiles, rng)).2.1
          (cIdx rooms e.1) (cIdx rooms e.2.1) := by
  intro edges
  induction edges with
  | nil =>
    intro parent tiles rng hd hp he
    exact ⟨hd, Wmono_refl _, fun e he2 => absurd he2 (List.not_mem_nil e)⟩
  | cons e es ih =>
    intro parent tiles rng hd hp he
    rw [mstFold, List.foldl_cons]
    dsimp only
    have hex := he e (by simp)
    have hu := unionC_rc rooms tiles parent.length parent e.1 e.2.1 hp hex.1 hex.2
    by_cases hm : (unionC parent.length parent e.1 e.2.1).1 = true
    · rw [if_pos hm]
      have hcc := carveCorridor_conn df hne hall (cIdx rooms e.1)
        (cIdx rooms e.2.1) (tiles, rng) hd (hcb _ hex.1) (hcb _ hex.2)
      have hrc1 : RC (carveCorridor floor_tiles df (cIdx rooms e.1)
          (cIdx rooms e.2.1) (tiles, rng)).1 (cIdx rooms e.1) (cIdx rooms e.2.1) :=
        Or.inr ⟨hcc.2.2.1, hcc.2.2.2.1, hcc.2.2.2.2⟩
      have hp1 := hu.2 hm _ hcc.2.1 hrc1
      have hes := ih (unionC parent.length parent e.1 e.2.1).2
        (carveCorridor floor_tiles df (cIdx rooms e.1) (cIdx rooms e.2.1)
          (tiles, rng)).1
        (carveCorridor floor_tiles df (cIdx rooms e.1) (cIdx rooms e.2.1)
          (tiles, rng)).2
        hcc.1 hp1 (fun e2 he2 => he e2 (by simp [he2]))
      unfold mstFold at hes
      refine ⟨hes.1, Wmono_trans hcc.2.1 hes.2.1, ?_⟩
      intro e2 he2
      rcases List.mem_cons.mp he2 with rfl | he3
      · exact RC_mono hes.2.1 hrc1
      · exact hes.2.2 e2 he3
    · rw [if_neg hm]
      have hnm := hu.1 (Bool.not_eq_true _ ▸ eq_false_of_ne_true hm)
      have hes := ih (unionC parent.length parent e.1 e.2.1).2 tiles rng hd
        hnm.1 (fun e2 he2 => he e2 (by simp [he2]))
      unfold mstFold at hes
      refine ⟨hes.1, hes.2.1, ?_⟩
      intro e2 he2
      rcases List.mem_cons.mp he2 with rfl | he3
      · exact RC_mono hes.2.1 hnm.2
      · exact hes.2.2 e2 he3


theorem genRangeNI_bounds (lo hi : Nat) (r : RngS) (h : lo ≤ hi) :
    lo ≤ (genRangeNI lo hi r).1 ∧ (genRangeNI lo hi r).1 ≤ hi := by
  unfold genRangeNI RngS.next
  dsimp only
  have := Nat.mod_lt (r.vals r.idx) (show 0 < hi - lo + 1 by omega)
  omega

theorem genRangeN_bounds (lo hi : Nat) (r : RngS) (h : lo < hi) :
    lo ≤ (genRangeN lo hi r).1 ∧ (genRangeN lo hi r).1 < hi := by
  unfold genRangeN RngS.next
  dsimp only
  have := Nat.mod_lt (r.vals r.idx) (show 0 < hi - lo by omega)
  omega

theorem range_getD_self (n k : Nat) : (List.range n).getD k k = k := by
  by_cases h : k < n
  · rw [List.getD_eq_getElem?_getD, List.getElem?_eq_getElem (by simpa using h)]
    simp
  · rw [List.getD_eq_getElem?_getD, List.getElem?_eq_none (by simpa using h)]
    rfl

theorem tileFrom_walkable (o : GameObject) (r : RngS) :
    ((tileFrom o r).1).walkable = o.walkable := by
  unfold tileFrom
  dsimp only
  split_ifs <;> rfl

theorem gwt_foldl_facts :
    ∀ (l : List GameObject) (acc : List Tile) (r : RngS),
      ((l.foldl (fun (st : List Tile × RngS) o =>
          let (t, r1) := tileFrom o st.2
          (st.1 ++ [t], r1)) (acc, r)).1.length = acc.length + l.length) ∧
      (∀ t ∈ (l.foldl (fun (st : List Tile × RngS) o =>
          let (t, r1) := tileFrom o st.2
          (st.1 ++ [t], r1)) (acc, r)).1,
        t ∈ acc ∨ ∃ o ∈ l, t.walkable = o.walkable) := by
  intro l
  induction l with
  | nil => intro acc r; exact ⟨by simp, fun t ht => Or.inl ht⟩
  | cons o l ih =>
    intro acc r
    rw [List.foldl_cons]
    dsimp only
    have h1 := ih (acc ++ [(tileFrom o r).1]) (tileFrom o r).2
    refine ⟨by rw [h1.1]; simp; omega, ?_⟩
    intro t ht
    rcases h1.2 t ht with hm | ⟨o2, ho2, hw⟩
    · rcases List.mem_append.mp hm with hm2 | hm2
      · exact Or.inl hm2
      · obtain rfl := List.mem_singleton.mp hm2
        exact Or.inr ⟨o, by simp, tileFrom_walkable o r⟩
    · exact Or.inr ⟨o2, by simp [ho2], hw⟩

theorem get_walkable_tiles_facts (reg : TileRegistry) (r : RngS) :
    ((reg.get_walkable_tiles r).1.length
      = (reg.objects.filter (fun o => o.walkable ∧ o.object_type == "tile")).length) ∧
    (∀ t ∈ (reg.get_walkable_tiles r).1, t.walkable = true) := by
  unfold TileRegistry.get_walkable_tiles
  have h := gwt_foldl_facts
    (reg.objects.filter (fun o => o.walkable ∧ o.object_type == "tile")) [] r
  refine ⟨by rw [h.1]; simp, ?_⟩
  intro t ht
  rcases h.2 t ht with hm | ⟨o, ho, hw⟩
  · exact absurd hm (List.not_mem_nil t)
  · have := List.mem_filter.mp ho
    rw [hw]
    have h2 := this.2
    simp at h2
    exact h2.1


theorem carve_foldl_dims {W H : Nat} (f : List (List Tile) × RngS → (Nat × Nat) →
      List (List Tile) × RngS)
    (hf : ∀ st c, Dims st.1 W H → Dims (f st c).1 W H) :
    ∀ (cells : List (Nat × Nat)) (st : List (List Tile) × RngS),
      Dims st.1 W H → Dims (cells.foldl f st).1 W H := by
  intro cells
  induction cells with
  | nil => intro st hd; exact hd
  | cons c cells ih =>
    intro st hd
    rw [List.foldl_cons]
    exact ih _ (hf st c hd)

theorem carveRoomFloors_dims {floor_tiles : List Tile} {room : Room} {W H : Nat}
    (st : List (List Tile) × RngS) (hd : Dims st.1 W H) :
    Dims (carveRoomFloors floor_tiles room st).1 W H := by
  unfold carveRoomFloors
  refine carve_foldl_dims _ ?_ _ st hd
  intro st2 c hd2
  dsimp only
  split_ifs with hc
  · exact setTileAt_dims _ _ _ hd2
  · exact hd2

theorem carveRoomFallback_dims {df : Tile} {room : Room} {W H : Nat}
    (st : List (List Tile) × RngS) (hd : Dims st.1 W H) :
    Dims (carveRoomFallback df room st).1 W H := by
  unfold carveRoomFallback
  refine carve_foldl_dims _ ?_ _ st hd
  intro st2 c hd2
  dsimp only
  split_ifs with hc
  · exact setTileAt_dims _ _ _ (setTileAt_dims _ _ _ hd2)
  · exact hd2

theorem spanBound (width : Nat) (hw : 18 ≤ width) (lo hi : Nat)
    (r1 r2 : RngS) (hhi : hi ≤ 15) (hlohi : lo ≤ hi) :
    (genRangeN 1 (width - (genRangeNI lo hi r1).1 - 1) r2).1
      + (genRangeNI lo hi r1).1 < width := by
  have h1 := genRangeNI_bounds lo hi r1 hlohi
  have h2 := genRangeN_bounds 1 (width - (genRangeNI lo hi r1).1 - 1) r2 (by omega)
  omega

theorem placeLoop_inv (reg : TileRegistry) (width height num_rooms : Nat)
    (hw : 18 ≤ width) (hh : 18 ≤ height) :
    ∀ (fuel : Nat) (st : PlaceSt), Dims st.tiles width height →
      (∀ r ∈ st.rooms, r.x + r.width < width ∧ r.y + r.height < height) →
      Dims (placeLoop reg width height num_rooms fuel st).tiles width height ∧
      (∀ r ∈ (placeLoop reg width height num_rooms fuel st).rooms,
        r.x + r.width < width ∧ r.y + r.height < height) := by
  intro fuel
  induction fuel with
  | zero => intro st hd hr; exact ⟨hd, hr⟩
  | succ fuel ih =>
    intro st hd hr
    rw [placeLoop]
    dsimp only
    split_ifs with h1 h2 h3 h4 h5 h6
    all_goals try exact ⟨hd, hr⟩
    all_goals try exact ih _ hd hr
    all_goals refine ih _ ?_ ?_
    all_goals dsimp only
    all_goals first
      | exact carveRoomFloors_dims _ hd
      | exact carveRoomFallback_dims _ hd
      | (intro r hrm
         rcases List.mem_append.mp hrm with hm | hm
         · exact hr r hm
         · obtain rfl := List.mem_singleton.mp hm
           dsimp only
           exact ⟨spanBound width hw _ _ _ _ (by omega) (by omega),
             spanBound height hh _ _ _ _ (by omega) (by omega)⟩)


theorem mem_insByKey (key : Nat × Nat × Nat → Nat) (y : Nat × Nat × Nat)
    (z : Nat × Nat × Nat) :
    ∀ (acc : List (Nat × Nat × Nat)),
      (z ∈ insByKey key y acc ↔ z = y ∨ z ∈ acc) := by
  intro acc
  induction acc with
  | nil => simp [insByKey]
  | cons a acc ih =>
    rw [insByKey]
    split_ifs with hc
    · simp
    · simp only [List.mem_cons, ih]
      constructor
      · rintro (h | h | h)
        · exact Or.inr (Or.inl h)
        · exact Or.inl h
        · exact Or.inr (Or.inr h)
      · rintro (h | h | h)
        · exact Or.inr (Or.inl h)
        · exact Or.inl h
        · exact Or.inr (Or.inr h)

theorem mem_sortByKey_foldl (key : Nat × Nat × Nat → Nat) (z : Nat × Nat × Nat) :
    ∀ (l acc : List (Nat × Nat × Nat)),
      (z ∈ l.foldl (fun acc x => insByKey key x acc) acc ↔ z ∈ acc ∨ z ∈ l) := by
  intro l
  induction l with
  | nil => simp
  | cons x l ih =>
    intro acc
    rw [List.foldl_cons, ih]
    rw [mem_insByKey]
    constructor
    · rintro ((h | h) | h)
      · exact Or.inr (by simp [h])
      · exact Or.inl h
      · exact Or.inr (by simp [h])
    · rintro (h | h)
      · exact Or.inl (Or.inr h)
      · rcases List.mem_cons.mp h with h2 | h2
        · exact Or.inl (Or.inl h2)
        · exact Or.inr h2

theorem mem_sortByKey (key : Nat × Nat × Nat → Nat) (z : Nat × Nat × Nat)
    (l : List (Nat × Nat × Nat)) : z ∈ sortByKey key l ↔ z ∈ l := by
  unfold sortByKey
  rw [mem_sortByKey_foldl]
  simp

theorem roomDistances_mem (rooms : List Room) (i j : Nat)
    (hij : i < j) (hj : j < rooms.length) :
    ∃ d, (i, j, d) ∈ roomDistances rooms := by
  unfold roomDistances
  dsimp only
  refine ⟨natDist (roomCenter (rooms.getD i ⟨0, 0, 0, 0⟩)).1
      (roomCenter (rooms.getD j ⟨0, 0, 0, 0⟩)).1
    + natDist (roomCenter (rooms.getD i ⟨0, 0, 0, 0⟩)).2
      (roomCenter (rooms.getD j ⟨0, 0, 0, 0⟩)).2, ?_⟩
  refine List.mem_flatMap.mpr ⟨i, List.mem_range.mpr (by omega), ?_⟩
  refine List.mem_map.mpr ⟨j, ?_, rfl⟩
  rw [List.mem_range'_1]
  omega

theorem roomDistances_bounds (rooms : List Room) :
    ∀ e ∈ roomDistances rooms, e.1 < rooms.length ∧ e.2.1 < rooms.length := by
  intro e he
  unfold roomDistances at he
  obtain ⟨i, hi, he2⟩ := List.mem_flatMap.mp he
  obtain ⟨j, hj, he3⟩ := List.mem_map.mp he2
  rw [List.mem_range] at hi
  rw [List.mem_range'_1] at hj
  subst he3
  dsimp only
  exact ⟨hi, by omega⟩


/-- C5 (amended): with a registry providing at least one walkable tile
template and an 18x18-or-larger well-formed grid, every two accepted
room centres of a generated dungeon are mutually reachable through
cardinally adjacent walkable tiles: each Kruskal merge carves an
L-corridor of walkable tiles between the two room centres, and the
union-find argument links every pair. -/
theorem dungeon_connectivity (tiles0 : List (List Tile)) (width height : Nat)
    (reg : TileRegistry) (min_rooms max_rooms : Nat) (rng : RngS)
    (hw : 18 ≤ width) (hh : 18 ≤ height)
    (hdim : Dims tiles0 width height)
    (hflr : reg.objects.filter (fun o => o.walkable ∧ o.object_type == "tile") ≠ [])
    (i j : Nat)
    (hi : i < (generate_rooms tiles0 width height reg min_rooms max_rooms
      rng).2.1.length)
    (hj : j < (generate_rooms tiles0 width height reg min_rooms max_rooms
      rng).2.1.length) :
    Reach (generate_rooms tiles0 width height reg min_rooms max_rooms rng).1
      (roomCenter ((generate_rooms tiles0 width height reg min_rooms max_rooms
        rng).2.1.getD i ⟨0, 0, 0, 0⟩))
      (roomCenter ((generate_rooms tiles0 width height reg min_rooms max_rooms
        rng).2.1.getD j ⟨0, 0, 0, 0⟩)) := by
  have hpl := placeLoop_inv reg width height
    (genRangeNI min_rooms max_rooms rng).1 hw hh 200
    ⟨[], tiles0, (genRangeNI min_rooms max_rooms rng).2⟩ hdim
    (fun r hr => absurd hr (List.not_mem_nil r))
  have hgw := get_walkable_tiles_facts reg (placeLoop reg width height (genRangeNI min_rooms max_rooms rng).1 200 ⟨[], tiles0, (genRangeNI min_rooms max_rooms rng).2⟩).rng
  have hne2 : (reg.get_walkable_tiles (placeLoop reg width height (genRangeNI min_rooms max_rooms rng).1 200 ⟨[], tiles0, (genRangeNI min_rooms max_rooms rng).2⟩).rng).1 ≠ [] := by
    intro hemp
    rw [hemp] at hgw
    exact hflr (List.length_eq_zero.mp hgw.1.symm)
  unfold generate_rooms at hi hj ⊢
  dsimp only at hi hj ⊢
  split_ifs at hi hj ⊢ with h1
  · have hi2 : i < (placeLoop reg width height (genRangeNI min_rooms max_rooms rng).1 200 ⟨[], tiles0, (genRangeNI min_rooms max_rooms rng).2⟩).rooms.length := hi
    have hj2 : j < (placeLoop reg width height (genRangeNI min_rooms max_rooms rng).1 200 ⟨[], tiles0, (genRangeNI min_rooms max_rooms rng).2⟩).rooms.length := hj
    show Reach (mstFold (placeLoop reg width height (genRangeNI min_rooms max_rooms rng).1 200 ⟨[], tiles0, (genRangeNI min_rooms max_rooms rng).2⟩).rooms (reg.get_walkable_tiles (placeLoop reg width height (genRangeNI min_rooms max_rooms rng).1 200 ⟨[], tiles0, (genRangeNI min_rooms max_rooms rng).2⟩).rng).1
        ((reg.get_walkable_tiles (placeLoop reg width height (genRangeNI min_rooms max_rooms rng).1 200 ⟨[], tiles0, (genRangeNI min_rooms max_rooms rng).2⟩).rng).1.getD 0 defaultTile)
        (sortByKey (fun e => e.2.2) (roomDistances (placeLoop reg width height (genRangeNI min_rooms max_rooms rng).1 200 ⟨[], tiles0, (genRangeNI min_rooms max_rooms rng).2⟩).rooms))
        (List.range (placeLoop reg width height (genRangeNI min_rooms max_rooms rng).1 200 ⟨[], tiles0, (genRangeNI min_rooms max_rooms rng).2⟩).rooms.length)
        ((placeLoop reg width height (genRangeNI min_rooms max_rooms rng).1 200 ⟨[], tiles0, (genRangeNI min_rooms max_rooms rng).2⟩).tiles, (reg.get_walkable_tiles (placeLoop reg width height (genRangeNI min_rooms max_rooms rng).1 200 ⟨[], tiles0, (genRangeNI min_rooms max_rooms rng).2⟩).rng).2)).2.1
      (roomCenter ((placeLoop reg width height (genRangeNI min_rooms max_rooms rng).1 200 ⟨[], tiles0, (genRangeNI min_rooms max_rooms rng).2⟩).rooms.getD i ⟨0, 0, 0, 0⟩))
      (roomCenter ((placeLoop reg width height (genRangeNI min_rooms max_rooms rng).1 200 ⟨[], tiles0, (genRangeNI min_rooms max_rooms rng).2⟩).rooms.getD j ⟨0, 0, 0, 0⟩))
    have hcb : ∀ k, k < (placeLoop reg width height (genRangeNI min_rooms max_rooms rng).1 200 ⟨[], tiles0, (genRangeNI min_rooms max_rooms rng).2⟩).rooms.length →
        (cIdx (placeLoop reg width height (genRangeNI min_rooms max_rooms rng).1 200 ⟨[], tiles0, (genRangeNI min_rooms max_rooms rng).2⟩).rooms k).1 < width ∧ (cIdx (placeLoop reg width height (genRangeNI min_rooms max_rooms rng).1 200 ⟨[], tiles0, (genRangeNI min_rooms max_rooms rng).2⟩).rooms k).2 < height := by
      intro k hk
      have hrm := hpl.2 ((placeLoop reg width height (genRangeNI min_rooms max_rooms rng).1 200 ⟨[], tiles0, (genRangeNI min_rooms max_rooms rng).2⟩).rooms.getD k ⟨0, 0, 0, 0⟩) (getD_mem_of_lt _ hk)
      unfold cIdx roomCenter
      dsimp only
      omega
    have hPInv : PInv (placeLoop reg width height (genRangeNI min_rooms max_rooms rng).1 200 ⟨[], tiles0, (genRangeNI min_rooms max_rooms rng).2⟩).rooms (placeLoop reg width height (genRangeNI min_rooms max_rooms rng).1 200 ⟨[], tiles0, (genRangeNI min_rooms max_rooms rng).2⟩).tiles
        (List.range (placeLoop reg width height (genRangeNI min_rooms max_rooms rng).1 200 ⟨[], tiles0, (genRangeNI min_rooms max_rooms rng).2⟩).rooms.length) := by
      intro k hk
      rw [range_getD_self]
      exact ⟨hk, RC_refl _ _⟩
    have hedges : ∀ e ∈ sortByKey (fun e => e.2.2) (roomDistances (placeLoop reg width height (genRangeNI min_rooms max_rooms rng).1 200 ⟨[], tiles0, (genRangeNI min_rooms max_rooms rng).2⟩).rooms),
        e.1 < (placeLoop reg width height (genRangeNI min_rooms max_rooms rng).1 200 ⟨[], tiles0, (genRangeNI min_rooms max_rooms rng).2⟩).rooms.length ∧ e.2.1 < (placeLoop reg width height (genRangeNI min_rooms max_rooms rng).1 200 ⟨[], tiles0, (genRangeNI min_rooms max_rooms rng).2⟩).rooms.length :=
      fun e he => roomDistances_bounds _ e ((mem_sortByKey _ _ _).mp he)
    have hfold := mstFold_conn (placeLoop reg width height (genRangeNI min_rooms max_rooms rng).1 200 ⟨[], tiles0, (genRangeNI min_rooms max_rooms rng).2⟩).rooms
      ((reg.get_walkable_tiles (placeLoop reg width height (genRangeNI min_rooms max_rooms rng).1 200 ⟨[], tiles0, (genRangeNI min_rooms max_rooms rng).2⟩).rng).1.getD 0 defaultTile) hne2 hgw.2 hcb
      (sortByKey (fun e => e.2.2) (roomDistances (placeLoop reg width height (genRangeNI min_rooms max_rooms rng).1 200 ⟨[], tiles0, (genRangeNI min_rooms max_rooms rng).2⟩).rooms))
      (List.range (placeLoop reg width height (genRangeNI min_rooms max_rooms rng).1 200 ⟨[], tiles0, (genRangeNI min_rooms max_rooms rng).2⟩).rooms.length) (placeLoop reg width height (genRangeNI min_rooms max_rooms rng).1 200 ⟨[], tiles0, (genRangeNI min_rooms max_rooms rng).2⟩).tiles
      (reg.get_walkable_tiles (placeLoop reg width height (genRangeNI min_rooms max_rooms rng).1 200 ⟨[], tiles0, (genRangeNI min_rooms max_rooms rng).2⟩).rng).2 hpl.1 hPInv hedges
    rcases Nat.lt_trichotomy i j with hlt | heq | hgt
    · obtain ⟨d, hd⟩ := roomDistances_mem (placeLoop reg width height (genRangeNI min_rooms max_rooms rng).1 200 ⟨[], tiles0, (genRangeNI min_rooms max_rooms rng).2⟩).rooms i j hlt hj2
      have he := hfold.2.2 (i, j, d) ((mem_sortByKey _ _ _).mpr hd)
      rcases he with heq2 | ⟨hr, _, _⟩
      · have heq3 : roomCenter ((placeLoop reg width height (genRangeNI min_rooms max_rooms rng).1 200 ⟨[], tiles0, (genRangeNI min_rooms max_rooms rng).2⟩).rooms.getD i ⟨0, 0, 0, 0⟩)
            = roomCenter ((placeLoop reg width height (genRangeNI min_rooms max_rooms rng).1 200 ⟨[], tiles0, (genRangeNI min_rooms max_rooms rng).2⟩).rooms.getD j ⟨0, 0, 0, 0⟩) := heq2
        rw [heq3]
        exact Reach.refl _
      · exact hr
    · subst heq
      exact Reach.refl _
    · obtain ⟨d, hd⟩ := roomDistances_mem (placeLoop reg width height (genRangeNI min_rooms max_rooms rng).1 200 ⟨[], tiles0, (genRangeNI min_rooms max_rooms rng).2⟩).rooms j i hgt hi2
      have he := hfold.2.2 (j, i, d) ((mem_sortByKey _ _ _).mpr hd)
      rcases RC_symm he with heq2 | ⟨hr, _, _⟩
      · have heq3 : roomCenter ((placeLoop reg width height (genRangeNI min_rooms max_rooms rng).1 200 ⟨[], tiles0, (genRangeNI min_rooms max_rooms rng).2⟩).rooms.getD i ⟨0, 0, 0, 0⟩)
            = roomCenter ((placeLoop reg width height (genRangeNI min_rooms max_rooms rng).1 200 ⟨[], tiles0, (genRangeNI min_rooms max_rooms rng).2⟩).rooms.getD j ⟨0, 0, 0, 0⟩) := heq2
        rw [heq3]
        exact Reach.refl _
      · exact hr
  · have hij : i = j := by
      have hi2 : i < (placeLoop reg width height (genRangeNI min_rooms max_rooms rng).1 200 ⟨[], tiles0, (genRangeNI min_rooms max_rooms rng).2⟩).rooms.length := hi
      have hj2 : j < (placeLoop reg width height (genRangeNI min_rooms max_rooms rng).1 200 ⟨[], tiles0, (genRangeNI min_rooms max_rooms rng).2⟩).rooms.length := hj
      omega
    subst hij
    exact Reach.refl _


/-- A registry whose only tile object is a non-walkable floor_dark: the
walkable-template list is empty and the fallback floor is not walkable. -/
def c5DarkObj : GameObject :=
  ⟨"floor_dark", "Dark floor", "tile", false, none, none, none, none, none,
    none, none, none, [], false, none, none, []⟩

def c5Reg : TileRegistry := ⟨[c5DarkObj]⟩

def c5Tiles0 : List (List Tile) :=
  List.replicate 18 (List.replicate 18 (Tile.mk_ false 0 0))

def c5Rng : RngS :=
  ⟨fun n => if n = 9 then 8 else if n = 1 then 3 else if n = 6 then 3 else 0, 0⟩

set_option maxRecDepth 80000 in
/-- C5 counterexample probe. -/
theorem c5_probe :
    (generate_rooms c5Tiles0 18 18 c5Reg 2 2 c5Rng).2.1.length = 2 ∧
    roomCenter ((generate_rooms c5Tiles0 18 18 c5Reg 2 2 c5Rng).2.1.getD 0
      ⟨0, 0, 0, 0⟩) = (3, 3) ∧
    roomCenter ((generate_rooms c5Tiles0 18 18 c5Reg 2 2 c5Rng).2.1.getD 1
      ⟨0, 0, 0, 0⟩) = (11, 3) ∧
    (getTileAt (generate_rooms c5Tiles0 18 18 c5Reg 2 2 c5Rng).1 11 3).walkable
      = false := by
  decide


set_option maxRecDepth 80000 in
/-- C5: the claim fails as stated.  With a registry whose only tile
object is a non-walkable floor_dark, generation accepts two rooms but
carves rooms and corridors with the non-walkable fallback floor: the
second room centre is not walkable, so no walkable path reaches it from
the first centre. -/
theorem dungeon_connectivity_counterexample :
    (generate_rooms c5Tiles0 18 18 c5Reg 2 2 c5Rng).2.1.length = 2 ∧
    ¬ Reach (generate_rooms c5Tiles0 18 18 c5Reg 2 2 c5Rng).1
      (roomCenter ((generate_rooms c5Tiles0 18 18 c5Reg 2 2 c5Rng).2.1.getD 0
        ⟨0, 0, 0, 0⟩))
      (roomCenter ((generate_rooms c5Tiles0 18 18 c5Reg 2 2 c5Rng).2.1.getD 1
        ⟨0, 0, 0, 0⟩)) := by
  obtain ⟨hlen, hc0, hc1, hwalk⟩ := c5_probe
  refine ⟨hlen, ?_⟩
  rw [hc0, hc1]
  intro h
  cases h with
  | step hab hadj hwc =>
    unfold walkAt at hwc
    rw [hwalk] at hwc
    simp at hwc

/-- Walkable floor template registry for the witness. -/
def c5FloorObj : GameObject :=
  ⟨"floor_dark", "Dark floor", "tile", true, none, none, none, none, none,
    none, none, none, [], false, none, none, []⟩

def c5wReg : TileRegistry := ⟨[c5FloorObj]⟩

set_option maxRecDepth 200000 in
/-- C5 witness probe. -/
theorem c5w_probe :
    Dims c5Tiles0 18 18 ∧
    (c5wReg.objects.filter (fun o => o.walkable ∧ o.object_type == "tile") ≠ []) ∧
    0 < (generate_rooms c5Tiles0 18 18 c5wReg 2 2 zeroRng).2.1.length := by
  refine ⟨⟨by decide, by decide⟩, by decide, by decide⟩


theorem dungeon_connectivity_witness :
    ((18 : Nat) ≤ 18 ∧ Dims c5Tiles0 18 18 ∧
      c5wReg.objects.filter (fun o => o.walkable ∧ o.object_type == "tile") ≠ [] ∧
      0 < (generate_rooms c5Tiles0 18 18 c5wReg 2 2 zeroRng).2.1.length) ∧
    Reach (generate_rooms c5Tiles0 18 18 c5wReg 2 2 zeroRng).1
      (roomCenter ((generate_rooms c5Tiles0 18 18 c5wReg 2 2
        zeroRng).2.1.getD 0 ⟨0, 0, 0, 0⟩))
      (roomCenter ((generate_rooms c5Tiles0 18 18 c5wReg 2 2
        zeroRng).2.1.getD 0 ⟨0, 0, 0, 0⟩)) :=
  ⟨⟨by decide, c5w_probe.1, c5w_probe.2.1, c5w_probe.2.2⟩,
    dungeon_connectivity c5Tiles0 18 18 c5wReg 2 2 zeroRng (by decide) (by decide)
      c5w_probe.1 c5w_probe.2.1 0 0 c5w_probe.2.2 c5w_probe.2.2⟩


end DG
